import Mathlib

/-!
Verification of the credit-risk decision engine's data-transformation chain
(`cleaning.py`, `features.py`) and its serving wrapper (`app.py`).

Modelling conventions:
* Python/NumPy floats are idealised as exact rationals (`ℚ`); `NaN` is an
  explicit `Value.na` constructor.  Infinities and float rounding are outside
  the regime the pipeline exercises (all numeric data originates from decimal
  text) and are not modelled.
* A pandas cell is a `Value`: a string, a float, or missing.  A column is a
  `List Value` (`List String` for the categorical `Occupation` column); a
  DataFrame is a `Frame` whose fields are `Option`-columns, `none` meaning the
  column is absent from the batch.  The `Frame` carries the columns the
  transform chain reads or writes; all other columns pass through every stage
  untouched (each stage only ever assigns to the columns modelled here), so
  they are omitted.
* `float(...)`/`pd.to_numeric` string parsing is modelled by `parseFloat?`:
  optional surrounding whitespace, optional sign, a mantissa with at most one
  dot and at least one digit, and an optional exponent part.  Numeric-literal
  underscores and the textual forms "inf"/"nan" are not modelled; no claim
  depends on them.
* `str(float)` (pandas `astype(str)` on a float column) is modelled by
  `floatRepr`: Python's fixed notation (shortest digits) for magnitudes in
  [1e-4, 1e16) and scientific notation (`1e-05`, `1.5e+20`) outside it,
  for rationals with a power-of-ten denominator -- exactly the values decimal
  input can produce.
-/

/-- Numeric value of one decimal digit character. -/
def digitToNat (c : Char) : ℕ := c.toNat - 48

/-- Value of a most-significant-first list of decimal digit characters. -/
def natOfDigits (l : List Char) : ℕ := l.foldl (fun a c => 10 * a + digitToNat c) 0

/-- Little-endian decimal digits of `n`, with explicit fuel (structural
recursion so that concrete evaluation reduces in the kernel). -/
def digitsLE : ℕ → ℕ → List ℕ
  | _, 0 => []
  | 0, _ + 1 => []
  | fuel + 1, n + 1 => (n + 1) % 10 :: digitsLE fuel ((n + 1) / 10)

/-- Most-significant-first decimal digit characters of `n` (`0 ↦ "0"`). -/
def digitsChars (n : ℕ) : List Char :=
  if n = 0 then ['0'] else ((digitsLE n n).map Nat.digitChar).reverse

/-- Left-pad a digit string with zeros to length `k`. -/
def padLeft (k : ℕ) (l : List Char) : List Char := List.replicate (k - l.length) '0' ++ l

/-- Strip leading and trailing whitespace (Python `float` accepts it). -/
def trimWs (cs : List Char) : List Char :=
  ((cs.dropWhile (·.isWhitespace)).reverse.dropWhile (·.isWhitespace)).reverse

/-- Parse an unsigned decimal mantissa: only digits and at most one dot,
with at least one digit (`"12"`, `"12."`, `".5"`, `"1.5"`). -/
def parseMantissa? (cs : List Char) : Option ℚ :=
  if (∀ c ∈ cs, c.isDigit = true ∨ c = '.') ∧ cs.count '.' ≤ 1 ∧ ∃ c ∈ cs, c.isDigit = true then
    let ip := cs.takeWhile (fun c => c != '.')
    let fp := (cs.dropWhile (fun c => c != '.')).drop 1
    some ((natOfDigits ip : ℚ) + (natOfDigits fp : ℚ) / 10 ^ fp.length)
  else none

/-- Parse an exponent part (after `e`/`E`): optional sign then digits. -/
def parseExp? : List Char → Option ℤ
  | '+' :: ds => if ds ≠ [] ∧ ∀ c ∈ ds, c.isDigit = true then some (natOfDigits ds) else none
  | '-' :: ds => if ds ≠ [] ∧ ∀ c ∈ ds, c.isDigit = true then some (-(natOfDigits ds : ℤ)) else none
  | ds => if ds ≠ [] ∧ ∀ c ∈ ds, c.isDigit = true then some (natOfDigits ds) else none

/-- Parse mantissa with optional `e`/`E` exponent. -/
def parseUnsigned? (cs : List Char) : Option ℚ :=
  match cs.dropWhile (fun c => c != 'e' && c != 'E') with
  | [] => parseMantissa? (cs.takeWhile (fun c => c != 'e' && c != 'E'))
  | _ :: es =>
    match parseMantissa? (cs.takeWhile (fun c => c != 'e' && c != 'E')), parseExp? es with
    | some q, some e => some (q * (10 : ℚ) ^ e)
    | _, _ => none

/-- Parse an optional leading sign. -/
def parseSigned? : List Char → Option ℚ
  | '+' :: r => parseUnsigned? r
  | '-' :: r => (parseUnsigned? r).map Neg.neg
  | cs => parseUnsigned? cs

/-- Model of `float(s)` / `pd.to_numeric(s)`: `none` is a parse failure
(`NaN` under `errors='coerce'`). -/
def parseFloat? (s : List Char) : Option ℚ := parseSigned? (trimWs s)

/-- The character filter of `RegexCleaner`: `re.sub(r'[^\d.-]', '', x)`
keeps exactly digits, dots and minus signs. -/
def filterNum (cs : List Char) : List Char :=
  cs.filter (fun c => c.isDigit || c == '.' || c == '-')

/-- Multiplicity of the prime `p` in `d`, with explicit fuel. -/
def factorExp (p : ℕ) : ℕ → ℕ → ℕ
  | 0, _ => 0
  | fuel + 1, d => if d % p = 0 ∧ d ≠ 0 then factorExp p fuel (d / p) + 1 else 0

/-- Decimal scale of a denominator: for `d = 2^i * 5^j` (the denominators
float-representable decimal values can have) this is the smallest `k` with
`d ∣ 10 ^ k`, namely `max i j`. -/
def decExpDen (d : ℕ) : ℕ := max (factorExp 2 d d) (factorExp 5 d d)

/-- Fixed-notation float string: `n / 10^k` printed as Python prints a float
of that value, e.g. `fixedChars 235 1 = "23.5"`, `fixedChars 23 0 = "23.0"`. -/
def fixedChars (n k : ℕ) : List Char :=
  if k = 0 then digitsChars n ++ ['.', '0']
  else digitsChars (n / 10 ^ k) ++ '.' :: padLeft k (digitsChars (n % 10 ^ k))

/-- At-least-two-digit exponent field, Python style (`05`, `16`, `123`). -/
def pad2 (n : ℕ) : List Char := if n < 10 then '0' :: digitsChars n else digitsChars n

/-- Scientific-notation float string for `n / 10^k` (`n ≠ 0`), Python style:
`sciChars 1 5 = "1e-05"`, `sciChars 15 8 = "1.5e-07"`. -/
def sciChars (n k : ℕ) : List Char :=
  let ds := digitsLE n n
  let mant : List Char :=
    match (ds.dropWhile (fun d => d == 0)).reverse.map Nat.digitChar with
    | [] => ['0']
    | h :: t => if t = [] then [h] else h :: '.' :: t
  let e : ℤ := (ds.length : ℤ) - 1 - (k : ℤ)
  mant ++ 'e' :: (if e < 0 then '-' else '+') :: pad2 e.natAbs

/-- `str(x)` for a nonnegative float `a` idealised as a rational. -/
def floatReprAbs (a : ℚ) : List Char :=
  if a = 0 then ['0', '.', '0']
  else
    let k := decExpDen a.den
    let n := (a * 10 ^ k).num.toNat
    if 1 / 10 ^ 4 ≤ a ∧ a < 10 ^ 16 then fixedChars n k else sciChars n k

/-- `str(x)` for a float idealised as a rational (sign handled here). -/
def floatRepr (q : ℚ) : List Char :=
  if q < 0 then '-' :: floatReprAbs (-q) else floatReprAbs q

/-- A pandas cell: a string, a (float) number, or missing (`NaN`). -/
inductive Value where
  | str (s : List Char)
  | num (q : ℚ)
  | na
deriving DecidableEq, Repr

/-- `astype(str)` on one cell (`str(NaN) = "nan"`). -/
def valueStr (v : Value) : List Char :=
  match v with
  | .str s => s
  | .num q => floatRepr q
  | .na => ['n', 'a', 'n']

/-- The numeric content of a cell, if it is a number. -/
def Value.toQ? (v : Value) : Option ℚ :=
  match v with
  | .num q => some q
  | _ => none

/-- A DataFrame restricted to the columns the transform chain reads or
writes; a `none` field is a column absent from the batch. -/
structure Frame where
  Age : Option (List Value) := none
  Num_Bank_Accounts : Option (List Value) := none
  Monthly_Balance : Option (List Value) := none
  Occupation : Option (List String) := none
  Annual_Income : Option (List Value) := none
  Outstanding_Debt : Option (List Value) := none
  Num_Credit_Card : Option (List Value) := none
  Monthly_Inhand_Salary : Option (List Value) := none
  DTI_Ratio : Option (List ℚ) := none
  Utilization_Proxy : Option (List ℚ) := none
  Income_Stability : Option (List ℚ) := none
deriving DecidableEq, Repr

/-- `RegexCleaner` per cell: stringify, strip every character that is not a
digit, dot or minus, map the empty remainder to `NaN`, then
`pd.to_numeric(..., errors='coerce')`. -/
def cleanCell (v : Value) : Value :=
  let f := filterNum (valueStr v)
  if f = [] then .na
  else
    match parseFloat? f with
    | some q => .num q
    | none => .na

/-- `RegexCleaner.transform`, specialised to the modelled subset of the
configured `DIRTY_NUMERIC_COLS` (train.py); each configured column present in
the batch is cleaned cellwise, absent columns are skipped, and `Occupation`
is not configured so it is untouched. -/
def RegexCleaner.transform (F : Frame) : Frame :=
  { F with
    Age := F.Age.map (List.map cleanCell)
    Num_Bank_Accounts := F.Num_Bank_Accounts.map (List.map cleanCell)
    Monthly_Balance := F.Monthly_Balance.map (List.map cleanCell)
    Annual_Income := F.Annual_Income.map (List.map cleanCell)
    Outstanding_Debt := F.Outstanding_Debt.map (List.map cleanCell)
    Num_Credit_Card := F.Num_Credit_Card.map (List.map cleanCell)
    Monthly_Inhand_Salary := F.Monthly_Inhand_Salary.map (List.map cleanCell) }

/-- Insert into a sorted list (ascending). -/
def insertSorted (a : ℚ) : List ℚ → List ℚ
  | [] => [a]
  | b :: t => if a ≤ b then a :: b :: t else b :: insertSorted a t

/-- Insertion sort (structural recursion, kernel-reducible). -/
def sortQ (l : List ℚ) : List ℚ := l.foldr insertSorted []

/-- Median of a list of rationals, as `pandas.Series.median` computes it on
the non-missing values: middle element for odd length, mean of the two middle
elements for even length. -/
def medianQ (l : List ℚ) : ℚ :=
  let s := sortQ l
  let n := s.length
  if n % 2 = 1 then s.getD (n / 2) 0
  else (s.getD (n / 2 - 1) 0 + s.getD (n / 2) 0) / 2

/-- `Series.median()` of a column of cells: skip missing values, `NaN`
(here `none`) when no non-missing value exists. -/
def medianOfColumn (l : List Value) : Option ℚ :=
  let vs := l.filterMap Value.toQ?
  if vs.isEmpty then none else some (medianQ vs)

/-- `OutlierCapper` state: the bounds fixed in `__init__` and the learned
`median_age` (default 30 until `fit` replaces it). -/
structure OutlierCapper where
  age_min : ℚ := 18
  age_max : ℚ := 100
  max_accounts : ℚ := 20
  median_age : ℚ := 30
deriving DecidableEq, Repr

/-- `X['Age'] < lo` / `X['Age'] > hi` on a float cell: comparisons with `NaN`
are false, so a missing age is never flagged.  (The column reaching this
stage is float-typed: `RegexCleaner` has already run on it.) -/
def ageOutOfRange (c : OutlierCapper) (v : Value) : Bool :=
  match v with
  | .num a => decide (a < c.age_min) || decide (a > c.age_max)
  | _ => false

/-- Age repair cell: out-of-range ages are replaced by the learned median. -/
def capAgeCell (c : OutlierCapper) (v : Value) : Value :=
  if ageOutOfRange c v then .num c.median_age else v

/-- First bank-account assignment: values above `max_accounts` become the cap
(`NaN` compares false, so missing counts are untouched). -/
def capBankHi (c : OutlierCapper) (v : Value) : Value :=
  match v with
  | .num b => if c.max_accounts < b then .num c.max_accounts else v
  | _ => v

/-- Second bank-account assignment: negative values become 0. -/
def capBankLo (v : Value) : Value :=
  match v with
  | .num b => if b < 0 then .num 0 else v
  | _ => v

/-- `OutlierCapper.fit`: learn `median_age` from the in-range ages only,
keeping the previous value (the default 30) when the `Age` column is absent
or no in-range age exists. -/
def OutlierCapper.fit (c : OutlierCapper) (F : Frame) : OutlierCapper :=
  match F.Age with
  | none => c
  | some col =>
    let valid := (col.filterMap Value.toQ?).filter
      (fun a => decide (c.age_min ≤ a) && decide (a ≤ c.age_max))
    if valid.isEmpty then c else { c with median_age := medianQ valid }

/-- `OutlierCapper.transform`: repair `Age` outliers with the learned median
and hard-cap `Num_Bank_Accounts` into `[0, max_accounts]` via the two
sequential masked assignments of the source; absent columns are skipped. -/
def OutlierCapper.transform (c : OutlierCapper) (F : Frame) : Frame :=
  { F with
    Age := F.Age.map (List.map (capAgeCell c))
    Num_Bank_Accounts :=
      F.Num_Bank_Accounts.map (fun col => (col.map (capBankHi c)).map capBankLo) }

/-- `MissingValueImputer` state: the per-occupation medians dictionary and the
global median fallback (`0.0` before `fit`).  An `Option ℚ` value of `none`
is a `NaN` entry (a group whose balances were all missing at fit time). -/
structure MissingValueImputer where
  group_medians : List (String × Option ℚ) := []
  global_median : Option ℚ := some 0
deriving DecidableEq, Repr

/-- The `Monthly_Balance` cells of the rows of one occupation group. -/
def groupBalances (occ : List String) (bal : List Value) (g : String) : List Value :=
  ((occ.zip bal).filter (fun p => p.1 == g)).map Prod.snd

/-- `MissingValueImputer.fit`: when both columns are present, learn the global
median of `Monthly_Balance` and the per-`Occupation` group medians. -/
def MissingValueImputer.fit (m : MissingValueImputer) (F : Frame) : MissingValueImputer :=
  match F.Monthly_Balance, F.Occupation with
  | some bal, some occ =>
    { m with
      global_median := medianOfColumn bal
      group_medians := occ.dedup.map (fun g => (g, medianOfColumn (groupBalances occ bal g))) }
  | _, _ => m

/-- A possibly-`NaN` scalar as a cell. -/
def optValue (q : Option ℚ) : Value :=
  match q with
  | some v => .num v
  | none => .na

/-- `fill_balance` on one row: keep a non-missing balance; otherwise look up
the occupation's group median, falling back to the global median for an
unseen occupation, and again to the global median when the looked-up group
median is itself `NaN`. -/
def fillCell (m : MissingValueImputer) (b : Value) (o : String) : Value :=
  match b with
  | .na =>
    match (m.group_medians.lookup o).getD m.global_median with
    | none => optValue m.global_median
    | some g => .num g
  | _ => b

/-- `MissingValueImputer.transform`: rowwise `fill_balance` when both columns
are present, a no-op otherwise. -/
def MissingValueImputer.transform (m : MissingValueImputer) (F : Frame) : Frame :=
  match F.Monthly_Balance, F.Occupation with
  | some bal, some occ =>
    { F with Monthly_Balance := some (List.zipWith (fillCell m) bal occ) }
  | _, _ => F

/-- `pd.to_numeric(col, errors='coerce').fillna(0)` on one cell: numbers stay,
missing becomes 0, strings parse or become 0. -/
def coerceZero (v : Value) : ℚ :=
  match v with
  | .num q => q
  | .na => 0
  | .str s => (parseFloat? s).getD 0

/-- `DTI_Ratio` of one row (computed from the already-coerced columns). -/
def dtiCell (d a : Value) : ℚ := coerceZero d / (coerceZero a + 1)

/-- `Utilization_Proxy` of one row: proxy limit of 5000 per card. -/
def utilCell (d n : Value) : ℚ := coerceZero d / (coerceZero n * 5000 + 1)

/-- `Income_Stability` of one row. -/
def stabCell (a s : Value) : ℚ :=
  |coerceZero a - coerceZero s * 12| / (coerceZero a + 1)

/-- First block of `FeatureEngineer.transform`: coerce the four ratio input
columns to numeric with zero-fill, in place, each only when present. -/
def coerceInputs (F : Frame) : Frame :=
  { F with
    Annual_Income := F.Annual_Income.map (List.map (fun v => Value.num (coerceZero v)))
    Outstanding_Debt := F.Outstanding_Debt.map (List.map (fun v => Value.num (coerceZero v)))
    Num_Credit_Card := F.Num_Credit_Card.map (List.map (fun v => Value.num (coerceZero v)))
    Monthly_Inhand_Salary :=
      F.Monthly_Inhand_Salary.map (List.map (fun v => Value.num (coerceZero v))) }

/-- Second block: add `DTI_Ratio` when both its inputs are present. -/
def addDTI (F : Frame) : Frame :=
  match F.Outstanding_Debt, F.Annual_Income with
  | some d, some a => { F with DTI_Ratio := some (List.zipWith dtiCell d a) }
  | _, _ => F

/-- Third block: add `Utilization_Proxy` when both its inputs are present. -/
def addUtil (F : Frame) : Frame :=
  match F.Outstanding_Debt, F.Num_Credit_Card with
  | some d, some n => { F with Utilization_Proxy := some (List.zipWith utilCell d n) }
  | _, _ => F

/-- Fourth block: add `Income_Stability` when both its inputs are present. -/
def addStab (F : Frame) : Frame :=
  match F.Annual_Income, F.Monthly_Inhand_Salary with
  | some a, some s => { F with Income_Stability := some (List.zipWith stabCell a s) }
  | _, _ => F

/-- `FeatureEngineer.transform`: the four sequential blocks of the source --
coerce the ratio inputs to numeric with zero-fill (in place, when present),
then add each ratio column whose two inputs are present. -/
def FeatureEngineer.transform (F : Frame) : Frame :=
  addStab (addUtil (addDTI (coerceInputs F)))

/-- The fitted transform chain applied in the fixed pipeline order
(`regex → outliers → imputer → features`, train.py). -/
def chainTransform (c : OutlierCapper) (m : MissingValueImputer) (F : Frame) : Frame :=
  FeatureEngineer.transform (m.transform (c.transform (RegexCleaner.transform F)))

/-- The request schema of `app.py` (`CreditApplication`, pydantic): the 19
declared feature fields, floats/ints idealised as rationals/integers. -/
structure CreditApplication where
  Age : ℚ
  Occupation : String
  Annual_Income : ℚ
  Monthly_Inhand_Salary : ℚ
  Num_Bank_Accounts : ℤ
  Num_Credit_Card : ℤ
  Interest_Rate : ℤ
  Num_of_Loan : ℤ
  Delay_from_due_date : ℤ
  Num_of_Delayed_Payment : ℤ
  Changed_Credit_Limit : ℚ
  Num_Credit_Inquiries : ℤ
  Credit_Mix : String
  Outstanding_Debt : ℚ
  Credit_Utilization_Ratio : ℚ
  Payment_of_Min_Amount : String
  Total_EMI_per_month : ℚ
  Amount_invested_monthly : ℚ
  Payment_Behaviour : String
  Monthly_Balance : ℚ

/-- `pd.DataFrame([application.model_dump()])`: the single-row batch built
from one request (restricted to the modelled columns). -/
def toSingleRowFrame (a : CreditApplication) : Frame :=
  { Age := some [.num a.Age]
    Num_Bank_Accounts := some [.num (a.Num_Bank_Accounts : ℚ)]
    Monthly_Balance := some [.num a.Monthly_Balance]
    Occupation := some [a.Occupation]
    Annual_Income := some [.num a.Annual_Income]
    Outstanding_Debt := some [.num a.Outstanding_Debt]
    Num_Credit_Card := some [.num (a.Num_Credit_Card : ℚ)]
    Monthly_Inhand_Salary := some [.num a.Monthly_Inhand_Salary] }

/-- An HTTP error response (`fastapi.HTTPException`). -/
structure HTTPErrorModel where
  status_code : ℕ
  detail : String
deriving DecidableEq, Repr

/-- The loaded fitted pipeline, with the encoder+classifier treated as an
opaque collaborator: each call either yields a result or raises (modelled as
`Except.error` with the exception text). -/
structure PipelineModel where
  predictClass : Frame → Except String ℕ
  predictProba : Frame → Except String (ℚ × ℚ × ℚ)

/-- `round(x, 3)` idealised on rationals. -/
def round3 (q : ℚ) : ℚ := (⌊q * 1000 + 1 / 2⌋ : ℚ) / 1000

/-- The response body of a successful prediction. -/
structure PredictResponse where
  credit_score : String
  prob_good : ℚ
  prob_standard : ℚ
  prob_poor : ℚ
  risk_level : String
deriving DecidableEq, Repr

/-- `class_map = {0: 'Good', 1: 'Standard', 2: 'Poor'}` lookup; `none` is the
`KeyError` an unexpected class index would raise. -/
def classMap (i : ℕ) : Option String :=
  match i with
  | 0 => some "Good"
  | 1 => some "Standard"
  | 2 => some "Poor"
  | _ => none

/-- The `/predict` endpoint: 503 when no pipeline is loaded, otherwise run
the pipeline inside the try-block, turning any raised exception into a 500
with the underlying cause as detail. -/
def predictEndpoint (pipeline : Option PipelineModel) (application : CreditApplication) :
    Except HTTPErrorModel PredictResponse :=
  match pipeline with
  | none => .error { status_code := 503, detail := "Model not loaded" }
  | some p =>
    let df := toSingleRowFrame application
    match p.predictClass df with
    | .error e => .error { status_code := 500, detail := e }
    | .ok idx =>
      match p.predictProba df with
      | .error e => .error { status_code := 500, detail := e }
      | .ok probs =>
        match classMap idx with
        | none => .error { status_code := 500, detail := "KeyError" }
        | some result =>
          .ok { credit_score := result
                prob_good := round3 probs.1
                prob_standard := round3 probs.2.1
                prob_poor := round3 probs.2.2
                risk_level :=
                  if result = "Poor" then "High"
                  else if result = "Good" then "Low" else "Medium" }

/-- A float value whose Python string form is plain fixed-notation decimal:
zero, or a power-of-ten denominator with magnitude in `[1e-4, 1e16)`.
Outside this regime `str(float)` uses scientific notation, whose `e` the
cleaning regex destroys. -/
def plainFloat (q : ℚ) : Prop :=
  q = 0 ∨ (q.den ∣ 10 ^ decExpDen q.den ∧ 1 / 10 ^ 4 ≤ |q| ∧ |q| < 10 ^ 16)

instance (q : ℚ) : Decidable (plainFloat q) := by unfold plainFloat; infer_instance

section DigitLemmas

theorem foldl_digits_eq (l : List Char) (a : ℕ) :
    l.foldl (fun a c => 10 * a + digitToNat c) a = a * 10 ^ l.length + natOfDigits l := by
  induction l generalizing a with
  | nil => simp [natOfDigits]
  | cons c t ih =>
    have h1 : natOfDigits (c :: t) =
        t.foldl (fun a c => 10 * a + digitToNat c) (digitToNat c) := by
      simp [natOfDigits]
    simp only [List.foldl_cons, List.length_cons, h1]
    rw [ih (10 * a + digitToNat c), ih (digitToNat c)]
    ring

theorem natOfDigits_append (l₁ l₂ : List Char) :
    natOfDigits (l₁ ++ l₂) = natOfDigits l₁ * 10 ^ l₂.length + natOfDigits l₂ := by
  unfold natOfDigits
  rw [List.foldl_append]
  exact foldl_digits_eq l₂ _

theorem natOfDigits_replicate_zero (m : ℕ) : natOfDigits (List.replicate m '0') = 0 := by
  induction m with
  | zero => simp [natOfDigits]
  | succ k ih =>
    rw [List.replicate_succ]
    have h0 : digitToNat '0' = 0 := rfl
    simpa [natOfDigits, h0] using ih

theorem natOfDigits_pad (m : ℕ) (l : List Char) :
    natOfDigits (List.replicate m '0' ++ l) = natOfDigits l := by
  rw [natOfDigits_append, natOfDigits_replicate_zero]
  simp

theorem digitToNat_digitChar (d : ℕ) (h : d < 10) : digitToNat (Nat.digitChar d) = d := by
  interval_cases d <;> decide

theorem digitChar_isDigit (d : ℕ) (h : d < 10) : (Nat.digitChar d).isDigit = true := by
  interval_cases d <;> decide

theorem digitsLE_lt_ten : ∀ (fuel n : ℕ), ∀ d ∈ digitsLE fuel n, d < 10 := by
  intro fuel
  induction fuel with
  | zero => intro n d hd; cases n <;> simp [digitsLE] at hd
  | succ f ih =>
    intro n d hd
    cases n with
    | zero => simp [digitsLE] at hd
    | succ m =>
      rw [digitsLE] at hd
      rcases List.mem_cons.mp hd with h | h
      · subst h; exact Nat.mod_lt _ (by norm_num)
      · exact ih _ _ h

theorem natOfDigits_digitsLE : ∀ (fuel n : ℕ), n ≤ fuel →
    natOfDigits (((digitsLE fuel n).map Nat.digitChar).reverse) = n := by
  intro fuel
  induction fuel with
  | zero =>
    intro n hn
    interval_cases n
    simp [digitsLE, natOfDigits]
  | succ f ih =>
    intro n hn
    cases n with
    | zero => simp [digitsLE, natOfDigits]
    | succ m =>
      rw [digitsLE]
      have hdiv : (m + 1) / 10 ≤ f := by
        have h1 : (m + 1) / 10 ≤ m := by
          rcases Nat.eq_zero_or_pos m with rfl | hm
          · simp
          · exact Nat.le_of_lt_succ (Nat.div_lt_self (Nat.succ_pos m) (by norm_num))
        omega
      have hih := ih ((m + 1) / 10) hdiv
      simp only [List.map_cons, List.reverse_cons]
      rw [natOfDigits_append, hih]
      have hd : digitToNat (Nat.digitChar ((m + 1) % 10)) = (m + 1) % 10 :=
        digitToNat_digitChar _ (Nat.mod_lt _ (by norm_num))
      have hnn : natOfDigits [Nat.digitChar ((m + 1) % 10)] =
          digitToNat (Nat.digitChar ((m + 1) % 10)) := by
        simp [natOfDigits]
      rw [hnn, hd]
      simp only [List.length_cons, List.length_nil]
      have := Nat.div_add_mod (m + 1) 10
      omega

theorem digitsLE_length_le : ∀ (fuel n k : ℕ), n < 10 ^ k → (digitsLE fuel n).length ≤ k := by
  intro fuel
  induction fuel with
  | zero => intro n k _; cases n <;> simp [digitsLE]
  | succ f ih =>
    intro n k hn
    cases n with
    | zero => simp [digitsLE]
    | succ m =>
      cases k with
      | zero => simp at hn
      | succ j =>
        rw [digitsLE]
        simp only [List.length_cons]
        have : (m + 1) / 10 < 10 ^ j := by
          rw [Nat.div_lt_iff_lt_mul (by norm_num : (0:ℕ) < 10)]
          calc m + 1 < 10 ^ (j + 1) := hn
          _ = 10 ^ j * 10 := by ring
        exact Nat.succ_le_succ (ih _ _ this)

theorem natOfDigits_digitsChars (n : ℕ) : natOfDigits (digitsChars n) = n := by
  unfold digitsChars
  split
  · subst n; decide
  · exact natOfDigits_digitsLE n n le_rfl

theorem digitsChars_isDigit (n : ℕ) : ∀ c ∈ digitsChars n, c.isDigit = true := by
  unfold digitsChars
  split
  · intro c hc; simp at hc; subst hc; decide
  · intro c hc
    rw [List.mem_reverse, List.mem_map] at hc
    obtain ⟨d, hd, rfl⟩ := hc
    exact digitChar_isDigit d (digitsLE_lt_ten _ _ _ hd)

theorem digitsChars_ne_nil (n : ℕ) : digitsChars n ≠ [] := by
  unfold digitsChars
  split
  · simp
  · rename_i h
    cases n with
    | zero => exact absurd rfl h
    | succ m => rw [digitsLE]; simp

theorem digitsChars_length_le (n k : ℕ) (h : n < 10 ^ k) (hk : 1 ≤ k) :
    (digitsChars n).length ≤ k := by
  unfold digitsChars
  split
  · simpa using hk
  · simpa using digitsLE_length_le n n k h

end DigitLemmas

section CharLemmas

theorem isDigit_ne_dot {c : Char} (h : c.isDigit = true) : c ≠ '.' := by
  intro hc; subst hc; exact absurd h (by decide)

theorem isDigit_bne_dot {c : Char} (h : c.isDigit = true) : (c != '.') = true := by
  simpa [bne_iff_ne] using isDigit_ne_dot h

theorem ws_cases {c : Char} (h : c.isWhitespace = true) :
    c = ' ' ∨ c = '\t' ∨ c = '\r' ∨ c = '\n' := by
  have h' := h
  simp [Char.isWhitespace] at h'
  tauto

theorem not_ws_of_keep {c : Char} (h : c.isDigit = true ∨ c = '.' ∨ c = '-') :
    c.isWhitespace = false := by
  by_contra hw
  rw [Bool.not_eq_false] at hw
  rcases ws_cases hw with rfl | rfl | rfl | rfl <;> rcases h with h | h | h <;> simp_all

theorem keep_bne_e {c : Char} (h : c.isDigit = true ∨ c = '.') :
    (c != 'e' && c != 'E') = true := by
  rcases h with h | rfl
  · have h1 : c ≠ 'e' := by intro hc; subst hc; exact absurd h (by decide)
    have h2 : c ≠ 'E' := by intro hc; subst hc; exact absurd h (by decide)
    simp [bne_iff_ne, h1, h2]
  · decide

end CharLemmas

section ScanLemmas

theorem dropWhile_eq_self_of {α : Type} (p : α → Bool) (l : List α)
    (h : ∀ c ∈ l, p c = false) : l.dropWhile p = l := by
  cases l with
  | nil => rfl
  | cons a t => simp [List.dropWhile_cons, h a (List.mem_cons_self a t)]

theorem takeWhile_eq_self_of {α : Type} (p : α → Bool) (l : List α)
    (h : ∀ c ∈ l, p c = true) : l.takeWhile p = l ∧ l.dropWhile p = [] := by
  induction l with
  | nil => exact ⟨rfl, rfl⟩
  | cons a t ih =>
    have ha := h a (List.mem_cons_self a t)
    have ih' := ih (fun c hc => h c (List.mem_cons_of_mem a hc))
    constructor
    · simp [List.takeWhile_cons, ha, ih'.1]
    · simp [List.dropWhile_cons, ha, ih'.2]

theorem trimWs_eq_self (l : List Char) (h : ∀ c ∈ l, c.isWhitespace = false) :
    trimWs l = l := by
  unfold trimWs
  rw [dropWhile_eq_self_of _ _ h,
    dropWhile_eq_self_of _ _ (fun c hc => h c (List.mem_reverse.mp hc)),
    List.reverse_reverse]

theorem scan_at_dot (ip fp : List Char) (h : ∀ c ∈ ip, c.isDigit = true) :
    (ip ++ '.' :: fp).takeWhile (fun c => c != '.') = ip ∧
    (ip ++ '.' :: fp).dropWhile (fun c => c != '.') = '.' :: fp := by
  induction ip with
  | nil => constructor <;> simp [List.takeWhile_cons, List.dropWhile_cons]
  | cons a t ih =>
    have ha := isDigit_bne_dot (h a (List.mem_cons_self a t))
    have ih' := ih (fun c hc => h c (List.mem_cons_of_mem a hc))
    constructor
    · simp only [List.cons_append, List.takeWhile_cons, ha]
      simp [ih'.1]
    · simp only [List.cons_append, List.dropWhile_cons, ha]
      simp [ih'.2]

end ScanLemmas

section ParseLemmas

theorem count_dot_zero {l : List Char} (h : ∀ c ∈ l, c.isDigit = true) :
    l.count '.' = 0 := by
  rw [List.count_eq_zero]
  intro hmem
  exact isDigit_ne_dot (h '.' hmem) rfl

theorem parseMantissa_dotted (ip fp : List Char)
    (hip : ∀ c ∈ ip, c.isDigit = true) (hfp : ∀ c ∈ fp, c.isDigit = true)
    (hne : ip ≠ [] ∨ fp ≠ []) :
    parseMantissa? (ip ++ '.' :: fp) =
      some ((natOfDigits ip : ℚ) + (natOfDigits fp : ℚ) / 10 ^ fp.length) := by
  have hcond : (∀ c ∈ ip ++ '.' :: fp, c.isDigit = true ∨ c = '.') ∧
      (ip ++ '.' :: fp).count '.' ≤ 1 ∧ ∃ c ∈ ip ++ '.' :: fp, c.isDigit = true := by
    refine ⟨?_, ?_, ?_⟩
    · intro c hc
      rcases List.mem_append.mp hc with h | h
      · exact Or.inl (hip c h)
      · rcases List.mem_cons.mp h with rfl | h
        · exact Or.inr rfl
        · exact Or.inl (hfp c h)
    · rw [List.count_append, List.count_cons_self, count_dot_zero hip, count_dot_zero hfp]
    · rcases hne with h | h
      · obtain ⟨a, t, rfl⟩ : ∃ a t, ip = a :: t := by
          cases ip with
          | nil => exact absurd rfl h
          | cons a t => exact ⟨a, t, rfl⟩
        exact ⟨a, by simp, hip a (by simp)⟩
      · obtain ⟨a, t, rfl⟩ : ∃ a t, fp = a :: t := by
          cases fp with
          | nil => exact absurd rfl h
          | cons a t => exact ⟨a, t, rfl⟩
        exact ⟨a, by simp, hfp a (by simp)⟩
  have hscan := scan_at_dot ip fp hip
  unfold parseMantissa?
  rw [if_pos hcond]
  simp only [hscan.1, hscan.2, List.drop_succ_cons, List.drop_zero]

theorem parseMantissa_digits (ds : List Char)
    (hds : ∀ c ∈ ds, c.isDigit = true) (hne : ds ≠ []) :
    parseMantissa? ds = some ((natOfDigits ds : ℚ)) := by
  have hcond : (∀ c ∈ ds, c.isDigit = true ∨ c = '.') ∧
      ds.count '.' ≤ 1 ∧ ∃ c ∈ ds, c.isDigit = true := by
    refine ⟨fun c hc => Or.inl (hds c hc), ?_, ?_⟩
    · rw [count_dot_zero hds]; norm_num
    · obtain ⟨a, t, rfl⟩ : ∃ a t, ds = a :: t := by
        cases ds with
        | nil => exact absurd rfl hne
        | cons a t => exact ⟨a, t, rfl⟩
      exact ⟨a, by simp, hds a (by simp)⟩
  have hscan := takeWhile_eq_self_of (fun c => c != '.') ds
    (fun c hc => isDigit_bne_dot (hds c hc))
  unfold parseMantissa?
  rw [if_pos hcond]
  simp only [hscan.1, hscan.2, List.drop_nil]
  norm_num [natOfDigits]

theorem parseUnsigned_no_e (cs : List Char) (h : ∀ c ∈ cs, c.isDigit = true ∨ c = '.') :
    parseUnsigned? cs = parseMantissa? cs := by
  have hscan := takeWhile_eq_self_of (fun c => c != 'e' && c != 'E') cs
    (fun c hc => keep_bne_e (h c hc))
  unfold parseUnsigned?
  rw [hscan.2, hscan.1]

theorem parseSigned_of_head (c : Char) (t : List Char) (h1 : c ≠ '+') (h2 : c ≠ '-') :
    parseSigned? (c :: t) = parseUnsigned? (c :: t) := by
  unfold parseSigned?
  split
  · rename_i heq; simp_all
  · rename_i heq; simp_all
  · rfl

theorem parseSigned_neg (r : List Char) :
    parseSigned? ('-' :: r) = (parseUnsigned? r).map Neg.neg := rfl

theorem parseFloat_digitsDots (cs : List Char)
    (h : ∀ c ∈ cs, c.isDigit = true ∨ c = '.') :
    parseFloat? cs = parseMantissa? cs := by
  unfold parseFloat?
  rw [trimWs_eq_self cs (fun c hc => not_ws_of_keep (by
    rcases h c hc with h' | h'
    · exact Or.inl h'
    · exact Or.inr (Or.inl h')))]
  cases cs with
  | nil => rfl
  | cons c t =>
    have hc := h c (List.mem_cons_self c t)
    have h1 : c ≠ '+' := by
      rcases hc with h' | rfl
      · intro hcc; subst hcc; exact absurd h' (by decide)
      · decide
    have h2 : c ≠ '-' := by
      rcases hc with h' | rfl
      · intro hcc; subst hcc; exact absurd h' (by decide)
      · decide
    rw [parseSigned_of_head c t h1 h2, parseUnsigned_no_e _ h]

theorem parseFloat_neg_digitsDots (cs : List Char)
    (h : ∀ c ∈ cs, c.isDigit = true ∨ c = '.') :
    parseFloat? ('-' :: cs) = (parseMantissa? cs).map Neg.neg := by
  unfold parseFloat?
  have hws : ∀ c ∈ '-' :: cs, c.isWhitespace = false := by
    intro c hc
    rcases List.mem_cons.mp hc with rfl | hc
    · decide
    · rcases h c hc with h' | h'
      · exact not_ws_of_keep (Or.inl h')
      · exact not_ws_of_keep (Or.inr (Or.inl h'))
  rw [trimWs_eq_self _ hws, parseSigned_neg, parseUnsigned_no_e _ h]

end ParseLemmas

section ReprLemmas

theorem filterNum_eq_self (l : List Char)
    (h : ∀ c ∈ l, c.isDigit = true ∨ c = '.' ∨ c = '-') : filterNum l = l := by
  unfold filterNum
  rw [List.filter_eq_self]
  intro c hc
  rcases h c hc with h' | h' | h' <;> simp [h']

theorem fixedChars_keep (n k : ℕ) : ∀ c ∈ fixedChars n k, c.isDigit = true ∨ c = '.' := by
  unfold fixedChars
  split
  · intro c hc
    rcases List.mem_append.mp hc with h | h
    · exact Or.inl (digitsChars_isDigit n c h)
    · simp only [List.mem_cons, List.not_mem_nil, or_false] at h
      rcases h with rfl | rfl
      · exact Or.inr rfl
      · left; decide
  · intro c hc
    rcases List.mem_append.mp hc with h | h
    · exact Or.inl (digitsChars_isDigit _ c h)
    · rcases List.mem_cons.mp h with rfl | h
      · exact Or.inr rfl
      · unfold padLeft at h
        rcases List.mem_append.mp h with h | h
        · have := List.eq_of_mem_replicate h
          subst this; left; decide
        · exact Or.inl (digitsChars_isDigit _ c h)

theorem fixedChars_ne_nil (n k : ℕ) : fixedChars n k ≠ [] := by
  unfold fixedChars
  split <;> simp [digitsChars_ne_nil]

theorem parseMantissa_fixedChars (n k : ℕ) :
    parseMantissa? (fixedChars n k) = some ((n : ℚ) / 10 ^ k) := by
  unfold fixedChars
  split
  · rename_i hk
    subst hk
    have h := parseMantissa_dotted (digitsChars n) ['0'] (digitsChars_isDigit n)
      (by intro c hc; simp at hc; subst hc; decide) (Or.inl (digitsChars_ne_nil n))
    have heq : digitsChars n ++ ['.', '0'] = digitsChars n ++ '.' :: ['0'] := rfl
    rw [heq, h, natOfDigits_digitsChars]
    have hz : natOfDigits ['0'] = 0 := by decide
    rw [hz]
    norm_num
  · rename_i hk
    have hk1 : 1 ≤ k := Nat.one_le_iff_ne_zero.mpr hk
    have hmod : n % 10 ^ k < 10 ^ k := Nat.mod_lt _ (by positivity)
    have hlen : (digitsChars (n % 10 ^ k)).length ≤ k :=
      digitsChars_length_le _ _ hmod hk1
    have hpadkeep : ∀ c ∈ padLeft k (digitsChars (n % 10 ^ k)), c.isDigit = true := by
      intro c hc
      unfold padLeft at hc
      rcases List.mem_append.mp hc with h | h
      · have := List.eq_of_mem_replicate h; subst this; decide
      · exact digitsChars_isDigit _ c h
    have hpadlen : (padLeft k (digitsChars (n % 10 ^ k))).length = k := by
      unfold padLeft
      rw [List.length_append, List.length_replicate]
      omega
    have hpadval : natOfDigits (padLeft k (digitsChars (n % 10 ^ k))) = n % 10 ^ k := by
      unfold padLeft
      rw [natOfDigits_pad, natOfDigits_digitsChars]
    rw [parseMantissa_dotted _ _ (digitsChars_isDigit _) hpadkeep
      (Or.inl (digitsChars_ne_nil _)), hpadval, hpadlen, natOfDigits_digitsChars]
    have h10 : ((10 : ℚ)) ^ k ≠ 0 := by positivity
    have hnm : (n / 10 ^ k) * 10 ^ k + n % 10 ^ k = n := by
      rw [mul_comm]; exact Nat.div_add_mod n (10 ^ k)
    field_simp
    exact_mod_cast hnm

theorem floatReprAbs_fixed (a : ℚ) (h0 : 0 < a) (hden : a.den ∣ 10 ^ decExpDen a.den)
    (hlo : 1 / 10 ^ 4 ≤ a) (hhi : a < 10 ^ 16) :
    (∀ c ∈ floatReprAbs a, c.isDigit = true ∨ c = '.') ∧
    parseMantissa? (floatReprAbs a) = some a ∧ floatReprAbs a ≠ [] := by
  have hrepr : floatReprAbs a =
      fixedChars ((a * 10 ^ decExpDen a.den).num.toNat) (decExpDen a.den) := by
    unfold floatReprAbs
    rw [if_neg (ne_of_gt h0), if_pos ⟨hlo, hhi⟩]
  set k := decExpDen a.den with hkdef
  set n := (a * 10 ^ k).num.toNat with hndef
  obtain ⟨c, hc⟩ := hden
  have hdenq : ((a.den : ℚ)) ≠ 0 := by
    exact_mod_cast a.den_nz
  have h1 : a * 10 ^ k = ((a.num * c : ℤ) : ℚ) := by
    have h10 : ((10 : ℚ)) ^ k = (a.den : ℚ) * (c : ℚ) := by
      have := congrArg (fun m : ℕ => (m : ℚ)) hc
      push_cast at this
      exact this
    have hnum : a * (a.den : ℚ) = (a.num : ℚ) := Rat.mul_den_eq_num a
    push_cast
    rw [h10, ← mul_assoc, hnum]
  have hcpos : 0 < c := by
    rcases Nat.eq_zero_or_pos c with rfl | h
    · rw [mul_zero] at hc
      exact absurd hc (by positivity)
    · exact h
  have hmnn : 0 ≤ a.num * (c : ℤ) :=
    mul_nonneg (le_of_lt (Rat.num_pos.mpr h0)) (by exact_mod_cast Nat.zero_le c)
  have hnval : (n : ℤ) = a.num * c := by
    rw [hndef, h1]
    rw [Rat.num_intCast]
    exact Int.toNat_of_nonneg hmnn
  have keyQ : (n : ℚ) = a * 10 ^ k := by
    have : ((n : ℤ) : ℚ) = ((a.num * c : ℤ) : ℚ) := by exact_mod_cast hnval
    rw [h1]
    exact_mod_cast this
  have hval : (n : ℚ) / 10 ^ k = a := by
    rw [keyQ]
    field_simp
  rw [hrepr]
  refine ⟨fixedChars_keep n k, ?_, fixedChars_ne_nil n k⟩
  rw [parseMantissa_fixedChars, hval]

end ReprLemmas

section CleanCellLemmas

theorem cleanCell_num_plain (q : ℚ) (h : plainFloat q) : cleanCell (.num q) = .num q := by
  rcases h with rfl | ⟨hden, hlo, hhi⟩
  · have hrepr : valueStr (Value.num 0) = ['0', '.', '0'] := by
      simp [valueStr, floatRepr, floatReprAbs]
    have hf : filterNum ['0', '.', '0'] = ['0', '.', '0'] := by decide
    have hp : parseMantissa? ['0', '.', '0'] = some ((natOfDigits ['0'] : ℚ) +
        (natOfDigits ['0'] : ℚ) / 10 ^ ([('0' : Char)].length)) := by
      exact parseMantissa_dotted ['0'] ['0'] (by decide) (by decide) (by simp)
    unfold cleanCell
    rw [hrepr, hf]
    have hkeep : ∀ c ∈ ['0', '.', '0'], c.isDigit = true ∨ c = '.' := by decide
    rw [if_neg (by simp), parseFloat_digitsDots _ hkeep, hp]
    have hz : natOfDigits ['0'] = 0 := by decide
    norm_num [hz]
  · rcases lt_trichotomy q 0 with hneg | rfl | hpos
    · have hd : (-q).den = q.den := Rat.neg_den q
      rw [abs_of_neg hneg] at hlo hhi
      have hspec := floatReprAbs_fixed (-q) (by linarith) (by rw [hd]; exact hden) hlo hhi
      have hrepr : valueStr (Value.num q) = '-' :: floatReprAbs (-q) := by
        simp [valueStr, floatRepr, if_pos hneg]
      unfold cleanCell
      rw [hrepr]
      have hkeep : ∀ c ∈ '-' :: floatReprAbs (-q), c.isDigit = true ∨ c = '.' ∨ c = '-' := by
        intro c hc
        rcases List.mem_cons.mp hc with rfl | hc
        · exact Or.inr (Or.inr rfl)
        · rcases hspec.1 c hc with h' | h'
          · exact Or.inl h'
          · exact Or.inr (Or.inl h')
      rw [filterNum_eq_self _ hkeep]
      rw [if_neg (by simp)]
      rw [parseFloat_neg_digitsDots _ hspec.1, hspec.2.1]
      simp
    · norm_num at hlo
    · rw [abs_of_pos hpos] at hlo hhi
      have hspec := floatReprAbs_fixed q hpos hden hlo hhi
      have hrepr : valueStr (Value.num q) = floatReprAbs q := by
        simp [valueStr, floatRepr, if_neg (not_lt.mpr (le_of_lt hpos))]
      unfold cleanCell
      rw [hrepr]
      have hkeep : ∀ c ∈ floatReprAbs q, c.isDigit = true ∨ c = '.' ∨ c = '-' := by
        intro c hc
        rcases hspec.1 c hc with h' | h'
        · exact Or.inl h'
        · exact Or.inr (Or.inl h')
      rw [filterNum_eq_self _ hkeep]
      rw [if_neg hspec.2.2]
      rw [parseFloat_digitsDots _ hspec.1, hspec.2.1]

theorem cleanCell_na : cleanCell .na = .na := by
  have h : filterNum (valueStr Value.na) = [] := by decide
  unfold cleanCell
  rw [h, if_pos rfl]

end CleanCellLemmas

section WellFormedParse

theorem parseFloat_wellFormed (neg dot : Bool) (ip fp : List Char)
    (hip : ∀ c ∈ ip, c.isDigit = true) (hfp : ∀ c ∈ fp, c.isDigit = true)
    (hne : ip ≠ [] ∨ fp ≠ []) (hdot : dot = false → fp = []) :
    parseFloat? ((if neg then ['-'] else []) ++ ip ++ (if dot then '.' :: fp else [])) =
      some ((if neg then (-1 : ℚ) else 1) *
        ((natOfDigits ip : ℚ) + (natOfDigits fp : ℚ) / 10 ^ fp.length)) := by
  cases dot with
  | false =>
    have hfp0 := hdot rfl
    subst hfp0
    have hipne : ip ≠ [] := by
      rcases hne with h | h
      · exact h
      · exact absurd rfl h
    have hm := parseMantissa_digits ip hip hipne
    have hz : natOfDigits ([] : List Char) = 0 := rfl
    cases neg with
    | false =>
      simp only [hz]
      simp
      rw [parseFloat_digitsDots ip (fun c hc => Or.inl (hip c hc)), hm]
    | true =>
      simp only [hz]
      simp
      rw [parseFloat_neg_digitsDots ip (fun c hc => Or.inl (hip c hc)), hm]
      simp
  | true =>
    have hm := parseMantissa_dotted ip fp hip hfp hne
    have hkeep : ∀ c ∈ ip ++ '.' :: fp, c.isDigit = true ∨ c = '.' := by
      intro c hc
      rcases List.mem_append.mp hc with h | h
      · exact Or.inl (hip c h)
      · rcases List.mem_cons.mp h with rfl | h
        · exact Or.inr rfl
        · exact Or.inl (hfp c h)
    cases neg with
    | false =>
      simp
      rw [parseFloat_digitsDots _ hkeep, hm]
    | true =>
      simp
      rw [parseFloat_neg_digitsDots _ hkeep, hm]
      simp

end WellFormedParse

section CapperHelpers

theorem capAgeCell_out (c : OutlierCapper) (a : ℚ) (h : a < c.age_min ∨ c.age_max < a) :
    capAgeCell c (.num a) = .num c.median_age := by
  unfold capAgeCell ageOutOfRange
  rcases h with h | h <;> simp [h]

theorem capAgeCell_in (c : OutlierCapper) (a : ℚ) (h1 : c.age_min ≤ a) (h2 : a ≤ c.age_max) :
    capAgeCell c (.num a) = .num a := by
  unfold capAgeCell ageOutOfRange
  simp [not_lt.mpr h1, not_lt.mpr h2]

theorem capAgeCell_na (c : OutlierCapper) : capAgeCell c .na = .na := rfl

theorem capBank_hi (c : OutlierCapper) (b : ℚ) (h : c.max_accounts < b)
    (h0 : 0 ≤ c.max_accounts) : capBankLo (capBankHi c (.num b)) = .num c.max_accounts := by
  unfold capBankHi capBankLo
  simp [h, not_lt.mpr h0]

theorem capBank_lo (c : OutlierCapper) (b : ℚ) (h : b < 0) (h0 : 0 ≤ c.max_accounts) :
    capBankLo (capBankHi c (.num b)) = .num 0 := by
  unfold capBankHi capBankLo
  have : ¬ c.max_accounts < b := not_lt.mpr (le_of_lt (lt_of_lt_of_le h h0))
  simp [this, h]

theorem capBank_in (c : OutlierCapper) (b : ℚ) (h1 : 0 ≤ b) (h2 : b ≤ c.max_accounts) :
    capBankLo (capBankHi c (.num b)) = .num b := by
  unfold capBankHi capBankLo
  simp [not_lt.mpr h2, not_lt.mpr h1]

theorem capBank_na (c : OutlierCapper) : capBankLo (capBankHi c .na) = .na := rfl

theorem fit_bounds (c : OutlierCapper) (F : Frame) :
    (c.fit F).age_min = c.age_min ∧ (c.fit F).age_max = c.age_max ∧
    (c.fit F).max_accounts = c.max_accounts := by
  unfold OutlierCapper.fit
  cases F.Age with
  | none => exact ⟨rfl, rfl, rfl⟩
  | some col => refine ⟨?_, ?_, ?_⟩ <;> (simp only []; split <;> rfl)

end CapperHelpers

/-- C1: for every configured dirty-numeric cell whose text keeps, after
removing all non-numeric characters, only digits, at most one dot and at most
one leading minus, `RegexCleaner.transform` produces exactly the numeric
value of that cleaned numeral. -/
theorem claim_C1 (s ip fp : List Char) (neg dot : Bool)
    (hip : ∀ c ∈ ip, c.isDigit = true) (hfp : ∀ c ∈ fp, c.isDigit = true)
    (hne : ip ≠ [] ∨ fp ≠ []) (hdot : dot = false → fp = [])
    (hdecomp : filterNum s =
      (if neg then ['-'] else []) ++ ip ++ (if dot then '.' :: fp else [])) :
    cleanCell (.str s) = .num ((if neg then (-1 : ℚ) else 1) *
      ((natOfDigits ip : ℚ) + (natOfDigits fp : ℚ) / 10 ^ fp.length)) := by
  have hne2 : (if neg then ['-'] else []) ++ ip ++ (if dot then '.' :: fp else []) ≠ [] := by
    intro hemp
    rcases List.append_eq_nil.mp hemp with ⟨h1, h2⟩
    rcases List.append_eq_nil.mp h1 with ⟨_, h4⟩
    cases dot with
    | true => simp at h2
    | false => exact hne.elim (fun h => h h4) (fun h => h (hdot rfl))
  have hval := parseFloat_wellFormed neg dot ip fp hip hfp hne hdot
  unfold cleanCell
  rw [show valueStr (.str s) = s from rfl, hdecomp, if_neg hne2, hval]

/-- C1 witness: the dirty text `"$-1,234.50x"` cleans to the float −1234.5. -/
theorem claim_C1_witness :
    cleanCell (.str ['$', '-', '1', ',', '2', '3', '4', '.', '5', '0', 'x']) =
      .num (-2469 / 2) := by
  have h := claim_C1 ['$', '-', '1', ',', '2', '3', '4', '.', '5', '0', 'x']
    ['1', '2', '3', '4'] ['5', '0'] true true (by decide) (by decide)
    (Or.inl (by decide)) (by decide) (by decide)
  have h1 : natOfDigits ['1', '2', '3', '4'] = 1234 := by decide
  have h2 : natOfDigits ['5', '0'] = 50 := by decide
  rw [h, h1, h2]
  norm_num

/-- C7: cleaning a configured dirty cell always yields a parsed float or the
explicit missing marker: an empty post-filter string becomes missing, an
unparseable remainder becomes missing, and the (total) operation never
raises. -/
theorem claim_C7 :
    (∀ v : Value, (∃ q, cleanCell v = .num q) ∨ cleanCell v = .na) ∧
    (∀ s : List Char, filterNum s = [] → cleanCell (.str s) = .na) ∧
    (∀ s : List Char, parseFloat? (filterNum s) = none → cleanCell (.str s) = .na) := by
  refine ⟨?_, ?_, ?_⟩
  · intro v
    by_cases hf : filterNum (valueStr v) = []
    · right; simp [cleanCell, hf]
    · cases hp : parseFloat? (filterNum (valueStr v)) with
      | some q => left; exact ⟨q, by simp [cleanCell, hf, hp]⟩
      | none => right; simp [cleanCell, hf, hp]
  · intro s h
    simp [cleanCell, valueStr, h]
  · intro s h
    by_cases hf : filterNum s = []
    · simp [cleanCell, valueStr, hf]
    · simp [cleanCell, valueStr, hf, h]

/-- C7 witness: `"_"` filters to the empty string and becomes missing, and
`"1-2"` filters to an unparseable token and becomes missing. -/
theorem claim_C7_witness :
    cleanCell (.str ['_']) = .na ∧ cleanCell (.str ['1', '-', '2']) = .na :=
  ⟨claim_C7.2.1 ['_'] (by decide), claim_C7.2.2 ['1', '-', '2'] (by decide)⟩

/-- C2: with the configured bounds, `OutlierCapper.transform` applies the two
independent cellwise repairs whenever the respective column is present: ages
strictly below 18 or strictly above 100 become the learned `median_age`, ages
in `[18, 100]` (in particular 18 and 100) and missing ages are untouched, and
bank-account counts above 20 become exactly 20 while negative counts become
exactly 0. -/
theorem claim_C2 (c : OutlierCapper) (F : Frame) (ageCol bankCol : List Value)
    (hmin : c.age_min = 18) (hmax : c.age_max = 100) (hacc : c.max_accounts = 20)
    (hA : F.Age = some ageCol) (hB : F.Num_Bank_Accounts = some bankCol) :
    (c.transform F).Age = some (ageCol.map (capAgeCell c)) ∧
    (c.transform F).Num_Bank_Accounts =
      some ((bankCol.map (capBankHi c)).map capBankLo) ∧
    (∀ a : ℚ, a < 18 ∨ 100 < a → capAgeCell c (.num a) = .num c.median_age) ∧
    (∀ a : ℚ, 18 ≤ a → a ≤ 100 → capAgeCell c (.num a) = .num a) ∧
    capAgeCell c .na = .na ∧
    (∀ b : ℚ, 20 < b → capBankLo (capBankHi c (.num b)) = .num 20) ∧
    (∀ b : ℚ, b < 0 → capBankLo (capBankHi c (.num b)) = .num 0) ∧
    (∀ b : ℚ, 0 ≤ b → b ≤ 20 → capBankLo (capBankHi c (.num b)) = .num b) := by
  refine ⟨?_, ?_, ?_, ?_, capAgeCell_na c, ?_, ?_, ?_⟩
  · simp [OutlierCapper.transform, hA]
  · simp [OutlierCapper.transform, hB]
  · intro a ha
    exact capAgeCell_out c a (by rw [hmin, hmax]; exact ha)
  · intro a h1 h2
    exact capAgeCell_in c a (by rw [hmin]; exact h1) (by rw [hmax]; exact h2)
  · intro b hb
    rw [← hacc] at hb ⊢
    exact capBank_hi c b hb (by rw [hacc]; norm_num)
  · intro b hb
    exact capBank_lo c b hb (by rw [hacc]; norm_num)
  · intro b h1 h2
    exact capBank_in c b h1 (by rw [hacc]; exact h2)

/-- C2 witness: with the default-constructed capper (median 30), age 17 is
replaced by 30, ages 18 and 100 are untouched, a 25-account count becomes 20
and a −3 count becomes 0. -/
theorem claim_C2_witness :
    capAgeCell {} (Value.num 17) = Value.num 30 ∧
    capAgeCell {} (Value.num 18) = Value.num 18 ∧
    capAgeCell {} (Value.num 100) = Value.num 100 ∧
    capBankLo (capBankHi {} (Value.num 25)) = Value.num 20 ∧
    capBankLo (capBankHi {} (Value.num (-3))) = Value.num 0 := by
  have h := claim_C2 {}
    { Age := some [Value.num 17], Num_Bank_Accounts := some [Value.num 25] }
    [Value.num 17] [Value.num 25] rfl rfl rfl rfl rfl
  exact ⟨h.2.2.1 17 (Or.inl (by norm_num)),
    h.2.2.2.1 18 (by norm_num) (by norm_num),
    h.2.2.2.1 100 (by norm_num) (by norm_num),
    h.2.2.2.2.2.1 25 (by norm_num),
    h.2.2.2.2.2.2.1 (-3) (by norm_num)⟩

/-- C3: `OutlierCapper.fit` learns `median_age` as the median of exactly the
age values in `[18, 100]`, keeps the fixed default 30 when the column is
absent or no such value exists, and the learned scalar is the one every
subsequent transform substitutes for out-of-range ages. -/
theorem claim_C3 (F : Frame) :
    (∀ col, F.Age = some col →
      (({} : OutlierCapper).fit F).median_age =
        (if ((col.filterMap Value.toQ?).filter fun a =>
              decide (18 ≤ a) && decide (a ≤ 100)).isEmpty
         then 30
         else medianQ ((col.filterMap Value.toQ?).filter fun a =>
              decide (18 ≤ a) && decide (a ≤ 100)))) ∧
    (F.Age = none → (({} : OutlierCapper).fit F).median_age = 30) ∧
    (∀ a : ℚ, a < 18 ∨ 100 < a →
      capAgeCell (({} : OutlierCapper).fit F) (.num a) =
        .num ((({} : OutlierCapper).fit F).median_age)) := by
  refine ⟨?_, ?_, ?_⟩
  · intro col h
    simp only [OutlierCapper.fit, h]
    split <;> rfl
  · intro h
    simp only [OutlierCapper.fit, h]
  · intro a ha
    have hb := fit_bounds ({} : OutlierCapper) F
    exact capAgeCell_out _ a (by rw [hb.1, hb.2.1]; exact ha)

/-- C3 witness: fitting on ages `[17, 30, 40, 200, NaN]` learns the median 35
of the in-range ages `{30, 40}`, and the fitted transform substitutes it for
the out-of-range age 17. -/
theorem claim_C3_witness :
    (({} : OutlierCapper).fit
        { Age := some [Value.num 17, Value.num 30, Value.num 40,
            Value.num 200, Value.na] }).median_age = 35 ∧
    capAgeCell (({} : OutlierCapper).fit
        { Age := some [Value.num 17, Value.num 30, Value.num 40,
            Value.num 200, Value.na] }) (.num 17) =
      .num ((({} : OutlierCapper).fit
        { Age := some [Value.num 17, Value.num 30, Value.num 40,
            Value.num 200, Value.na] }).median_age) := by
  have h := claim_C3
    { Age := some [Value.num 17, Value.num 30, Value.num 40, Value.num 200, Value.na] }
  have h1 := h.1 [Value.num 17, Value.num 30, Value.num 40, Value.num 200, Value.na] rfl
  refine ⟨?_, h.2.2 17 (Or.inl (by norm_num))⟩
  rw [h1]
  norm_num [Value.toQ?, List.filterMap, List.filter, medianQ, sortQ, insertSorted]

section FramePlumbing

theorem map_eq_self_of {α : Type} (l : List α) (f : α → α) (h : ∀ v ∈ l, f v = v) :
    l.map f = l := by
  induction l with
  | nil => rfl
  | cons a t ih =>
    rw [List.map_cons, h a (List.mem_cons_self a t),
      ih (fun v hv => h v (List.mem_cons_of_mem a hv))]

theorem addDTI_fields (F : Frame) :
    (addDTI F).Age = F.Age ∧ (addDTI F).Num_Bank_Accounts = F.Num_Bank_Accounts ∧
    (addDTI F).Monthly_Balance = F.Monthly_Balance ∧
    (addDTI F).Occupation = F.Occupation ∧
    (addDTI F).Annual_Income = F.Annual_Income ∧
    (addDTI F).Outstanding_Debt = F.Outstanding_Debt ∧
    (addDTI F).Num_Credit_Card = F.Num_Credit_Card ∧
    (addDTI F).Monthly_Inhand_Salary = F.Monthly_Inhand_Salary ∧
    (addDTI F).Utilization_Proxy = F.Utilization_Proxy ∧
    (addDTI F).Income_Stability = F.Income_Stability := by
  unfold addDTI
  refine ⟨?_, ?_, ?_, ?_, ?_, ?_, ?_, ?_, ?_, ?_⟩ <;> (split <;> rfl)

theorem addDTI_ratio (F : Frame) (d a : List Value)
    (hd : F.Outstanding_Debt = some d) (ha : F.Annual_Income = some a) :
    (addDTI F).DTI_Ratio = some (List.zipWith dtiCell d a) := by
  unfold addDTI
  rw [hd, ha]

theorem addDTI_skip (F : Frame)
    (h : F.Outstanding_Debt = none ∨ F.Annual_Income = none) :
    (addDTI F).DTI_Ratio = F.DTI_Ratio := by
  unfold addDTI
  rcases h with h | h <;> rw [h] <;> (split <;> simp_all)

theorem addUtil_fields (F : Frame) :
    (addUtil F).Age = F.Age ∧ (addUtil F).Num_Bank_Accounts = F.Num_Bank_Accounts ∧
    (addUtil F).Monthly_Balance = F.Monthly_Balance ∧
    (addUtil F).Occupation = F.Occupation ∧
    (addUtil F).Annual_Income = F.Annual_Income ∧
    (addUtil F).Outstanding_Debt = F.Outstanding_Debt ∧
    (addUtil F).Num_Credit_Card = F.Num_Credit_Card ∧
    (addUtil F).Monthly_Inhand_Salary = F.Monthly_Inhand_Salary ∧
    (addUtil F).DTI_Ratio = F.DTI_Ratio ∧
    (addUtil F).Income_Stability = F.Income_Stability := by
  unfold addUtil
  refine ⟨?_, ?_, ?_, ?_, ?_, ?_, ?_, ?_, ?_, ?_⟩ <;> (split <;> rfl)

theorem addUtil_ratio (F : Frame) (d n : List Value)
    (hd : F.Outstanding_Debt = some d) (hn : F.Num_Credit_Card = some n) :
    (addUtil F).Utilization_Proxy = some (List.zipWith utilCell d n) := by
  unfold addUtil
  rw [hd, hn]

theorem addUtil_skip (F : Frame)
    (h : F.Outstanding_Debt = none ∨ F.Num_Credit_Card = none) :
    (addUtil F).Utilization_Proxy = F.Utilization_Proxy := by
  unfold addUtil
  rcases h with h | h <;> rw [h] <;> (split <;> simp_all)

theorem addStab_fields (F : Frame) :
    (addStab F).Age = F.Age ∧ (addStab F).Num_Bank_Accounts = F.Num_Bank_Accounts ∧
    (addStab F).Monthly_Balance = F.Monthly_Balance ∧
    (addStab F).Occupation = F.Occupation ∧
    (addStab F).Annual_Income = F.Annual_Income ∧
    (addStab F).Outstanding_Debt = F.Outstanding_Debt ∧
    (addStab F).Num_Credit_Card = F.Num_Credit_Card ∧
    (addStab F).Monthly_Inhand_Salary = F.Monthly_Inhand_Salary ∧
    (addStab F).DTI_Ratio = F.DTI_Ratio ∧
    (addStab F).Utilization_Proxy = F.Utilization_Proxy := by
  unfold addStab
  refine ⟨?_, ?_, ?_, ?_, ?_, ?_, ?_, ?_, ?_, ?_⟩ <;> (split <;> rfl)

theorem addStab_ratio (F : Frame) (a s : List Value)
    (ha : F.Annual_Income = some a) (hs : F.Monthly_Inhand_Salary = some s) :
    (addStab F).Income_Stability = some (List.zipWith stabCell a s) := by
  unfold addStab
  rw [ha, hs]

theorem addStab_skip (F : Frame)
    (h : F.Annual_Income = none ∨ F.Monthly_Inhand_Salary = none) :
    (addStab F).Income_Stability = F.Income_Stability := by
  unfold addStab
  rcases h with h | h <;> rw [h] <;> (split <;> simp_all)

theorem imputer_fields (m : MissingValueImputer) (F : Frame) :
    (m.transform F).Age = F.Age ∧
    (m.transform F).Num_Bank_Accounts = F.Num_Bank_Accounts ∧
    (m.transform F).Occupation = F.Occupation ∧
    (m.transform F).Annual_Income = F.Annual_Income ∧
    (m.transform F).Outstanding_Debt = F.Outstanding_Debt ∧
    (m.transform F).Num_Credit_Card = F.Num_Credit_Card ∧
    (m.transform F).Monthly_Inhand_Salary = F.Monthly_Inhand_Salary ∧
    (m.transform F).DTI_Ratio = F.DTI_Ratio ∧
    (m.transform F).Utilization_Proxy = F.Utilization_Proxy ∧
    (m.transform F).Income_Stability = F.Income_Stability := by
  unfold MissingValueImputer.transform
  refine ⟨?_, ?_, ?_, ?_, ?_, ?_, ?_, ?_, ?_, ?_⟩ <;> (split <;> rfl)

theorem imputer_balance (m : MissingValueImputer) (F : Frame) (bal : List Value)
    (occ : List String) (hb : F.Monthly_Balance = some bal) (ho : F.Occupation = some occ) :
    (m.transform F).Monthly_Balance = some (List.zipWith (fillCell m) bal occ) := by
  unfold MissingValueImputer.transform
  rw [hb, ho]

end FramePlumbing

section ZipAndLookup

theorem zip_dti (d a : List Value) :
    List.zipWith dtiCell (d.map fun v => Value.num (coerceZero v))
      (a.map fun v => Value.num (coerceZero v)) =
    List.zipWith (fun x y => coerceZero x / (coerceZero y + 1)) d a := by
  rw [List.zipWith_map]
  rfl

theorem zip_util (d n : List Value) :
    List.zipWith utilCell (d.map fun v => Value.num (coerceZero v))
      (n.map fun v => Value.num (coerceZero v)) =
    List.zipWith (fun x y => coerceZero x / (coerceZero y * 5000 + 1)) d n := by
  rw [List.zipWith_map]
  rfl

theorem zip_stab (a s : List Value) :
    List.zipWith stabCell (a.map fun v => Value.num (coerceZero v))
      (s.map fun v => Value.num (coerceZero v)) =
    List.zipWith (fun x y => |coerceZero x - coerceZero y * 12| / (coerceZero x + 1)) a s := by
  rw [List.zipWith_map]
  rfl

theorem lookup_map_mem {β : Type} (l : List String) (f : String → β) (o : String)
    (h : o ∈ l) : List.lookup o (l.map fun g => (g, f g)) = some (f o) := by
  induction l with
  | nil => simp at h
  | cons a t ih =>
    by_cases hao : o = a
    · subst hao
      simp [List.lookup]
    · have hot : o ∈ t := by
        rcases List.mem_cons.mp h with h' | h'
        · exact absurd h' hao
        · exact h'
      simp only [List.map_cons, List.lookup_cons]
      rw [show (o == a) = false from by simpa using hao]
      exact ih hot

theorem lookup_map_not_mem {β : Type} (l : List String) (f : String → β) (o : String)
    (h : o ∉ l) : List.lookup o (l.map fun g => (g, f g)) = none := by
  induction l with
  | nil => rfl
  | cons a t ih =>
    have hao : o ≠ a := fun he => h (he ▸ List.mem_cons_self a t)
    simp only [List.map_cons, List.lookup_cons]
    rw [show (o == a) = false from by simpa using hao]
    exact ih (fun ht => h (List.mem_cons_of_mem a ht))

end ZipAndLookup

/-- C4: with both columns present at fit and transform time, the fitted
`MissingValueImputer` leaves a non-missing `Monthly_Balance` unchanged, fills
a missing one with the fit-time group median of the row's `Occupation`, and
falls back to the fit-time global median both for an occupation unseen at fit
time and for a group whose median is undefined (no non-missing fit-time
observation). -/
theorem claim_C4 (ff tf : Frame) (fbal tbal : List Value) (focc tocc : List String)
    (h1 : ff.Monthly_Balance = some fbal) (h2 : ff.Occupation = some focc)
    (h3 : tf.Monthly_Balance = some tbal) (h4 : tf.Occupation = some tocc) :
    ((({} : MissingValueImputer).fit ff).transform tf).Monthly_Balance =
      some (List.zipWith (fillCell (({} : MissingValueImputer).fit ff)) tbal tocc) ∧
    (∀ b o, b ≠ Value.na → fillCell (({} : MissingValueImputer).fit ff) b o = b) ∧
    (∀ o g, o ∈ focc → medianOfColumn (groupBalances focc fbal o) = some g →
      fillCell (({} : MissingValueImputer).fit ff) .na o = .num g) ∧
    (∀ o, o ∉ focc → fillCell (({} : MissingValueImputer).fit ff) .na o =
      optValue (medianOfColumn fbal)) ∧
    (∀ o, o ∈ focc → medianOfColumn (groupBalances focc fbal o) = none →
      fillCell (({} : MissingValueImputer).fit ff) .na o =
        optValue (medianOfColumn fbal)) := by
  have hm : ({} : MissingValueImputer).fit ff =
      { group_medians := focc.dedup.map
          (fun g => (g, medianOfColumn (groupBalances focc fbal g)))
        global_median := medianOfColumn fbal } := by
    unfold MissingValueImputer.fit
    rw [h1, h2]
  refine ⟨imputer_balance _ tf tbal tocc h3 h4, ?_, ?_, ?_, ?_⟩
  · intro b o hb
    cases b with
    | na => exact absurd rfl hb
    | str s => rfl
    | num q => rfl
  · intro o g ho hg
    rw [hm]
    simp only [fillCell]
    rw [lookup_map_mem focc.dedup _ o (List.mem_dedup.mpr ho), hg]
    rfl
  · intro o ho
    rw [hm]
    simp only [fillCell]
    rw [lookup_map_not_mem focc.dedup _ o (fun h => ho (List.mem_dedup.mp h))]
    cases hgm : medianOfColumn fbal <;> simp [optValue, hgm]
  · intro o ho hg
    rw [hm]
    simp only [fillCell]
    rw [lookup_map_mem focc.dedup _ o (List.mem_dedup.mpr ho), hg]
    rfl

/-- C4 witness: fitting on balances `[100, NaN, NaN]` with occupations
`[Engineer, Chef, Chef]`, a missing balance is filled with 100 via the
Engineer group median, via the global fallback for the all-missing Chef
group, and via the global fallback for the unseen Doctor; a present balance
5 is untouched. -/
theorem claim_C4_witness :
    fillCell (({} : MissingValueImputer).fit
      { Monthly_Balance := some [Value.num 100, Value.na, Value.na],
        Occupation := some ["Engineer", "Chef", "Chef"] }) .na "Engineer" = .num 100 ∧
    fillCell (({} : MissingValueImputer).fit
      { Monthly_Balance := some [Value.num 100, Value.na, Value.na],
        Occupation := some ["Engineer", "Chef", "Chef"] }) .na "Chef" = .num 100 ∧
    fillCell (({} : MissingValueImputer).fit
      { Monthly_Balance := some [Value.num 100, Value.na, Value.na],
        Occupation := some ["Engineer", "Chef", "Chef"] }) .na "Doctor" = .num 100 ∧
    fillCell (({} : MissingValueImputer).fit
      { Monthly_Balance := some [Value.num 100, Value.na, Value.na],
        Occupation := some ["Engineer", "Chef", "Chef"] }) (.num 5) "Chef" = .num 5 := by
  have h := claim_C4
    { Monthly_Balance := some [Value.num 100, Value.na, Value.na],
      Occupation := some ["Engineer", "Chef", "Chef"] }
    { Monthly_Balance := some [Value.na], Occupation := some ["Engineer"] }
    [Value.num 100, Value.na, Value.na] [Value.na]
    ["Engineer", "Chef", "Chef"] ["Engineer"] rfl rfl rfl rfl
  have hglob : medianOfColumn [Value.num 100, Value.na, Value.na] = some 100 := by
    norm_num [medianOfColumn, Value.toQ?, List.filterMap, medianQ, sortQ, insertSorted]
  have heng : medianOfColumn (groupBalances ["Engineer", "Chef", "Chef"]
      [Value.num 100, Value.na, Value.na] "Engineer") = some 100 := by
    have hg : groupBalances ["Engineer", "Chef", "Chef"]
        [Value.num 100, Value.na, Value.na] "Engineer" = [Value.num 100] := by
      simp [groupBalances]
    rw [hg]
    norm_num [medianOfColumn, Value.toQ?, List.filterMap, medianQ, sortQ, insertSorted]
  have hchef : medianOfColumn (groupBalances ["Engineer", "Chef", "Chef"]
      [Value.num 100, Value.na, Value.na] "Chef") = none := by
    have hg : groupBalances ["Engineer", "Chef", "Chef"]
        [Value.num 100, Value.na, Value.na] "Chef" = [Value.na, Value.na] := by
      simp [groupBalances]
    rw [hg]
    norm_num [medianOfColumn, Value.toQ?, List.filterMap]
  refine ⟨h.2.2.1 "Engineer" 100 (by decide) heng, ?_, ?_,
    h.2.1 (.num 5) "Chef" (by simp)⟩
  · rw [h.2.2.2.2 "Chef" (by decide) hchef, hglob]
    rfl
  · rw [h.2.2.2.1 "Doctor" (by decide), hglob]
    rfl

/-- C5: `FeatureEngineer.transform` adds, per row, `DTI_Ratio =
debt/(income+1)`, `Utilization_Proxy = debt/(cards*5000+1)` and
`Income_Stability = |income − salary*12|/(income+1)` as new columns whenever
the respective two inputs are present, and the absence of an input column
skips only the ratios needing it, not the others. -/
theorem claim_C5 (F : Frame) :
    (∀ d a, F.Outstanding_Debt = some d → F.Annual_Income = some a →
      (FeatureEngineer.transform F).DTI_Ratio =
        some (List.zipWith (fun x y => coerceZero x / (coerceZero y + 1)) d a)) ∧
    (∀ d n, F.Outstanding_Debt = some d → F.Num_Credit_Card = some n →
      (FeatureEngineer.transform F).Utilization_Proxy =
        some (List.zipWith (fun x y => coerceZero x / (coerceZero y * 5000 + 1)) d n)) ∧
    (∀ a s, F.Annual_Income = some a → F.Monthly_Inhand_Salary = some s →
      (FeatureEngineer.transform F).Income_Stability =
        some (List.zipWith
          (fun x y => |coerceZero x - coerceZero y * 12| / (coerceZero x + 1)) a s)) ∧
    (F.Annual_Income = none →
      (FeatureEngineer.transform F).DTI_Ratio = F.DTI_Ratio ∧
      (FeatureEngineer.transform F).Income_Stability = F.Income_Stability) ∧
    (F.Outstanding_Debt = none →
      (FeatureEngineer.transform F).DTI_Ratio = F.DTI_Ratio ∧
      (FeatureEngineer.transform F).Utilization_Proxy = F.Utilization_Proxy) ∧
    (F.Num_Credit_Card = none →
      (FeatureEngineer.transform F).Utilization_Proxy = F.Utilization_Proxy) ∧
    (F.Monthly_Inhand_Salary = none →
      (FeatureEngineer.transform F).Income_Stability = F.Income_Stability) := by
  have hDTIpass : ∀ X : Frame, (addStab (addUtil X)).DTI_Ratio = X.DTI_Ratio := by
    intro X
    obtain ⟨_, _, _, _, _, _, _, _, h9, _⟩ := addStab_fields (addUtil X)
    obtain ⟨_, _, _, _, _, _, _, _, h9', _⟩ := addUtil_fields X
    rw [h9, h9']
  have hUtilpass : ∀ X : Frame, (addStab X).Utilization_Proxy = X.Utilization_Proxy :=
    fun X => (addStab_fields X).2.2.2.2.2.2.2.2.2
  have hStabpass : ∀ X : Frame, (addUtil X).Income_Stability = X.Income_Stability :=
    fun X => (addUtil_fields X).2.2.2.2.2.2.2.2.2
  have hStabpass' : ∀ X : Frame, (addDTI X).Income_Stability = X.Income_Stability :=
    fun X => (addDTI_fields X).2.2.2.2.2.2.2.2.2
  have hcOD : ∀ X : Frame, (addDTI X).Outstanding_Debt = X.Outstanding_Debt :=
    fun X => (addDTI_fields X).2.2.2.2.2.1
  have hcNC : ∀ X : Frame, (addDTI X).Num_Credit_Card = X.Num_Credit_Card :=
    fun X => (addDTI_fields X).2.2.2.2.2.2.1
  have hcAI2 : ∀ X : Frame, (addUtil X).Annual_Income = X.Annual_Income :=
    fun X => (addUtil_fields X).2.2.2.2.1
  have hcAI1 : ∀ X : Frame, (addDTI X).Annual_Income = X.Annual_Income :=
    fun X => (addDTI_fields X).2.2.2.2.1
  have hcMS2 : ∀ X : Frame, (addUtil X).Monthly_Inhand_Salary = X.Monthly_Inhand_Salary :=
    fun X => (addUtil_fields X).2.2.2.2.2.2.2.1
  have hcMS1 : ∀ X : Frame, (addDTI X).Monthly_Inhand_Salary = X.Monthly_Inhand_Salary :=
    fun X => (addDTI_fields X).2.2.2.2.2.2.2.1
  have htr : FeatureEngineer.transform F = addStab (addUtil (addDTI (coerceInputs F))) := rfl
  refine ⟨?_, ?_, ?_, ?_, ?_, ?_, ?_⟩
  · intro d a hd ha
    rw [htr, hDTIpass]
    rw [addDTI_ratio _ (d.map fun v => Value.num (coerceZero v))
      (a.map fun v => Value.num (coerceZero v))
      (by rw [show (coerceInputs F).Outstanding_Debt =
          F.Outstanding_Debt.map (List.map fun v => Value.num (coerceZero v)) from rfl, hd]; rfl)
      (by rw [show (coerceInputs F).Annual_Income =
          F.Annual_Income.map (List.map fun v => Value.num (coerceZero v)) from rfl, ha]; rfl)]
    rw [zip_dti]
  · intro d n hd hn
    rw [htr, hUtilpass]
    rw [addUtil_ratio _ (d.map fun v => Value.num (coerceZero v))
      (n.map fun v => Value.num (coerceZero v))
      (by rw [hcOD, show (coerceInputs F).Outstanding_Debt =
          F.Outstanding_Debt.map (List.map fun v => Value.num (coerceZero v)) from rfl, hd]; rfl)
      (by rw [hcNC, show (coerceInputs F).Num_Credit_Card =
          F.Num_Credit_Card.map (List.map fun v => Value.num (coerceZero v)) from rfl, hn]; rfl)]
    rw [zip_util]
  · intro a s ha hs
    rw [htr]
    rw [addStab_ratio _ (a.map fun v => Value.num (coerceZero v))
      (s.map fun v => Value.num (coerceZero v))
      (by rw [hcAI2, hcAI1, show (coerceInputs F).Annual_Income =
          F.Annual_Income.map (List.map fun v => Value.num (coerceZero v)) from rfl, ha]; rfl)
      (by rw [hcMS2, hcMS1, show (coerceInputs F).Monthly_Inhand_Salary =
          F.Monthly_Inhand_Salary.map (List.map fun v => Value.num (coerceZero v)) from rfl, hs]; rfl)]
    rw [zip_stab]
  · intro h
    constructor
    · rw [htr, hDTIpass]
      rw [addDTI_skip _ (Or.inr (by
        rw [show (coerceInputs F).Annual_Income =
          F.Annual_Income.map (List.map fun v => Value.num (coerceZero v)) from rfl, h]; rfl))]
      rfl
    · rw [htr]
      rw [addStab_skip _ (Or.inl (by
        rw [hcAI2, hcAI1, show (coerceInputs F).Annual_Income =
          F.Annual_Income.map (List.map fun v => Value.num (coerceZero v)) from rfl, h]; rfl))]
      rw [hStabpass, hStabpass']
      rfl
  · intro h
    constructor
    · rw [htr, hDTIpass]
      rw [addDTI_skip _ (Or.inl (by
        rw [show (coerceInputs F).Outstanding_Debt =
          F.Outstanding_Debt.map (List.map fun v => Value.num (coerceZero v)) from rfl, h]; rfl))]
      rfl
    · rw [htr, hUtilpass]
      rw [addUtil_skip _ (Or.inl (by
        rw [hcOD, show (coerceInputs F).Outstanding_Debt =
          F.Outstanding_Debt.map (List.map fun v => Value.num (coerceZero v)) from rfl, h]; rfl))]
      rw [(addDTI_fields (coerceInputs F)).2.2.2.2.2.2.2.2.1]
      rfl
  · intro h
    rw [htr, hUtilpass]
    rw [addUtil_skip _ (Or.inr (by
      rw [hcNC, show (coerceInputs F).Num_Credit_Card =
        F.Num_Credit_Card.map (List.map fun v => Value.num (coerceZero v)) from rfl, h]; rfl))]
    rw [(addDTI_fields (coerceInputs F)).2.2.2.2.2.2.2.2.1]
    rfl
  · intro h
    rw [htr]
    rw [addStab_skip _ (Or.inr (by
      rw [hcMS2, hcMS1, show (coerceInputs F).Monthly_Inhand_Salary =
        F.Monthly_Inhand_Salary.map (List.map fun v => Value.num (coerceZero v)) from rfl, h]; rfl))]
    rw [hStabpass, hStabpass']
    rfl

/-- C5 witness: on a one-row batch with debt 800, income 65000, 3 cards and
salary 4500, the three ratio columns are added with values 800/65001,
800/15001 and 11000/65001. -/
theorem claim_C5_witness :
    (FeatureEngineer.transform
      { Annual_Income := some [Value.num 65000], Outstanding_Debt := some [Value.num 800],
        Num_Credit_Card := some [Value.num 3],
        Monthly_Inhand_Salary := some [Value.num 4500] }).DTI_Ratio =
      some [(800 : ℚ) / 65001] ∧
    (FeatureEngineer.transform
      { Annual_Income := some [Value.num 65000], Outstanding_Debt := some [Value.num 800],
        Num_Credit_Card := some [Value.num 3],
        Monthly_Inhand_Salary := some [Value.num 4500] }).Utilization_Proxy =
      some [(800 : ℚ) / 15001] ∧
    (FeatureEngineer.transform
      { Annual_Income := some [Value.num 65000], Outstanding_Debt := some [Value.num 800],
        Num_Credit_Card := some [Value.num 3],
        Monthly_Inhand_Salary := some [Value.num 4500] }).Income_Stability =
      some [(11000 : ℚ) / 65001] := by
  have h := claim_C5
    { Annual_Income := some [Value.num 65000], Outstanding_Debt := some [Value.num 800],
      Num_Credit_Card := some [Value.num 3],
      Monthly_Inhand_Salary := some [Value.num 4500] }
  refine ⟨?_, ?_, ?_⟩
  · rw [h.1 [Value.num 800] [Value.num 65000] rfl rfl]
    norm_num [coerceZero]
  · rw [h.2.1 [Value.num 800] [Value.num 3] rfl rfl]
    norm_num [coerceZero]
  · rw [h.2.2.1 [Value.num 65000] [Value.num 4500] rfl rfl]
    norm_num [coerceZero, abs_of_nonneg]

/-- C6: for rows whose coerced denominator inputs are non-negative, the three
ratio denominators are at least 1 (hence nonzero), and each ratio times its
denominator recovers its numerator -- the division is well defined, never a
division by zero. -/
theorem claim_C6 (d a n s : Value) (ha : 0 ≤ coerceZero a) (hn : 0 ≤ coerceZero n) :
    (1 : ℚ) ≤ coerceZero a + 1 ∧ (1 : ℚ) ≤ coerceZero n * 5000 + 1 ∧
    coerceZero a + 1 ≠ 0 ∧ coerceZero n * 5000 + 1 ≠ 0 ∧
    dtiCell d a * (coerceZero a + 1) = coerceZero d ∧
    utilCell d n * (coerceZero n * 5000 + 1) = coerceZero d ∧
    stabCell a s * (coerceZero a + 1) = |coerceZero a - coerceZero s * 12| := by
  have h1 : (1 : ℚ) ≤ coerceZero a + 1 := by linarith
  have h2 : (0 : ℚ) ≤ coerceZero n * 5000 := mul_nonneg hn (by norm_num)
  have h2' : (1 : ℚ) ≤ coerceZero n * 5000 + 1 := by linarith
  have hne1 : coerceZero a + 1 ≠ 0 := by linarith
  have hne2 : coerceZero n * 5000 + 1 ≠ 0 := by linarith
  refine ⟨h1, h2', hne1, hne2, ?_, ?_, ?_⟩
  · unfold dtiCell
    exact div_mul_cancel₀ _ hne1
  · unfold utilCell
    exact div_mul_cancel₀ _ hne2
  · unfold stabCell
    exact div_mul_cancel₀ _ hne1

/-- C6 witness: at debt 800, income 65000, 3 cards, salary 4500 the DTI
denominator is at least 1 and multiplying the ratio by it recovers the
debt. -/
theorem claim_C6_witness :
    (1 : ℚ) ≤ coerceZero (Value.num 65000) + 1 ∧
    dtiCell (Value.num 800) (Value.num 65000) * (coerceZero (Value.num 65000) + 1) =
      coerceZero (Value.num 800) ∧
    utilCell (Value.num 800) (Value.num 3) * (coerceZero (Value.num 3) * 5000 + 1) =
      coerceZero (Value.num 800) := by
  have h := claim_C6 (Value.num 800) (Value.num 65000) (Value.num 3) (Value.num 4500)
    (by norm_num [coerceZero]) (by norm_num [coerceZero])
  exact ⟨h.1, h.2.2.2.2.1, h.2.2.2.2.2.1⟩

/-- C8: calling the prediction endpoint with no loaded pipeline yields the
503 service-unavailable error for every request -- never a crash (the
operation is total) and never the 500 bad-input error. -/
theorem claim_C8 (application : CreditApplication) :
    predictEndpoint none application =
      .error { status_code := 503, detail := "Model not loaded" } ∧
    ∀ d : String, ({ status_code := 503, detail := "Model not loaded" } : HTTPErrorModel) ≠
      { status_code := 500, detail := d } := by
  refine ⟨rfl, fun d h => ?_⟩
  have : (503 : ℕ) = 500 := congrArg HTTPErrorModel.status_code h
  norm_num at this

/-- C8 witness: the spec's example request against an unloaded service
yields exactly the 503 response. -/
theorem claim_C8_witness :
    predictEndpoint none
      { Age := 34, Occupation := "Engineer", Annual_Income := 65000,
        Monthly_Inhand_Salary := 4500, Num_Bank_Accounts := 4, Num_Credit_Card := 3,
        Interest_Rate := 15, Num_of_Loan := 2, Delay_from_due_date := 5,
        Num_of_Delayed_Payment := 1, Changed_Credit_Limit := 1200,
        Num_Credit_Inquiries := 4, Credit_Mix := "Good", Outstanding_Debt := 800,
        Credit_Utilization_Ratio := 30, Payment_of_Min_Amount := "No",
        Total_EMI_per_month := 150, Amount_invested_monthly := 80,
        Payment_Behaviour := "High_spent_Small_value_payments", Monthly_Balance := 350 } =
      .error { status_code := 503, detail := "Model not loaded" } :=
  (claim_C8 _).1

/-- C10: when the four ratio-input columns are present,
`RatioFeatureEngineer` rewrites them in place with their coerced values, so
every missing or unparseable cell becomes the number 0 in the output frame
itself, visible to downstream stages. -/
theorem claim_C10 (F : Frame) (ai od nc ms : List Value)
    (h1 : F.Annual_Income = some ai) (h2 : F.Outstanding_Debt = some od)
    (h3 : F.Num_Credit_Card = some nc) (h4 : F.Monthly_Inhand_Salary = some ms) :
    (FeatureEngineer.transform F).Annual_Income =
      some (ai.map fun v => Value.num (coerceZero v)) ∧
    (FeatureEngineer.transform F).Outstanding_Debt =
      some (od.map fun v => Value.num (coerceZero v)) ∧
    (FeatureEngineer.transform F).Num_Credit_Card =
      some (nc.map fun v => Value.num (coerceZero v)) ∧
    (FeatureEngineer.transform F).Monthly_Inhand_Salary =
      some (ms.map fun v => Value.num (coerceZero v)) ∧
    (∀ v : Value, v = Value.na ∨ (∃ s, v = Value.str s ∧ parseFloat? s = none) →
      coerceZero v = 0) := by
  have htr : FeatureEngineer.transform F = addStab (addUtil (addDTI (coerceInputs F))) := rfl
  refine ⟨?_, ?_, ?_, ?_, ?_⟩
  · rw [htr, (addStab_fields _).2.2.2.2.1, (addUtil_fields _).2.2.2.2.1,
      (addDTI_fields _).2.2.2.2.1,
      show (coerceInputs F).Annual_Income =
        F.Annual_Income.map (List.map fun v => Value.num (coerceZero v)) from rfl, h1]
    rfl
  · rw [htr, (addStab_fields _).2.2.2.2.2.1, (addUtil_fields _).2.2.2.2.2.1,
      (addDTI_fields _).2.2.2.2.2.1,
      show (coerceInputs F).Outstanding_Debt =
        F.Outstanding_Debt.map (List.map fun v => Value.num (coerceZero v)) from rfl, h2]
    rfl
  · rw [htr, (addStab_fields _).2.2.2.2.2.2.1, (addUtil_fields _).2.2.2.2.2.2.1,
      (addDTI_fields _).2.2.2.2.2.2.1,
      show (coerceInputs F).Num_Credit_Card =
        F.Num_Credit_Card.map (List.map fun v => Value.num (coerceZero v)) from rfl, h3]
    rfl
  · rw [htr, (addStab_fields _).2.2.2.2.2.2.2.1, (addUtil_fields _).2.2.2.2.2.2.2.1,
      (addDTI_fields _).2.2.2.2.2.2.2.1,
      show (coerceInputs F).Monthly_Inhand_Salary =
        F.Monthly_Inhand_Salary.map (List.map fun v => Value.num (coerceZero v)) from rfl, h4]
    rfl
  · intro v hv
    rcases hv with rfl | ⟨s, rfl, hs⟩
    · rfl
    · simp [coerceZero, hs]

/-- C10 witness: a missing income and an unparseable income string both come
out of the engineer as the number 0 in the `Annual_Income` column itself. -/
theorem claim_C10_witness :
    (FeatureEngineer.transform
      { Annual_Income := some [Value.na, Value.str ['x']],
        Outstanding_Debt := some [Value.num 800, Value.num 800],
        Num_Credit_Card := some [Value.num 3, Value.num 3],
        Monthly_Inhand_Salary := some [Value.num 4500, Value.num 4500] }).Annual_Income =
      some [Value.num 0, Value.num 0] := by
  have h := claim_C10
    { Annual_Income := some [Value.na, Value.str ['x']],
      Outstanding_Debt := some [Value.num 800, Value.num 800],
      Num_Credit_Card := some [Value.num 3, Value.num 3],
      Monthly_Inhand_Salary := some [Value.num 4500, Value.num 4500] }
    [Value.na, Value.str ['x']] [Value.num 800, Value.num 800]
    [Value.num 3, Value.num 3] [Value.num 4500, Value.num 4500] rfl rfl rfl rfl
  rw [h.1]
  have hna := h.2.2.2.2 Value.na (Or.inl rfl)
  have hx := h.2.2.2.2 (Value.str ['x']) (Or.inr ⟨['x'], rfl, by decide⟩)
  simp [hna, hx]

section ChainHelpers

theorem fillCell_not_na (m : MissingValueImputer) (b : Value) (o : String)
    (h : b ≠ Value.na) : fillCell m b o = b := by
  cases b with
  | na => exact absurd rfl h
  | str s => rfl
  | num q => rfl

theorem zipWith_fill_eq (m : MissingValueImputer) :
    ∀ (bal : List Value) (occ : List String), (∀ v ∈ bal, v ≠ Value.na) →
      bal.length ≤ occ.length → List.zipWith (fillCell m) bal occ = bal := by
  intro bal
  induction bal with
  | nil => intro occ _ _; rfl
  | cons b t ih =>
    intro occ hv hlen
    cases occ with
    | nil => simp at hlen
    | cons o os =>
      simp only [List.zipWith_cons_cons]
      rw [fillCell_not_na m b o (hv b (List.mem_cons_self b t)),
        ih os (fun v hvt => hv v (List.mem_cons_of_mem b hvt)) (by simpa using hlen)]

theorem imputer_noop (m : MissingValueImputer) (X : Frame)
    (h : X.Monthly_Balance = none ∨ X.Occupation = none) : m.transform X = X := by
  unfold MissingValueImputer.transform
  split
  · rename_i bal occ hb ho
    rcases h with h | h <;> simp_all
  · rfl

theorem clean_col_id (colOpt : Option (List Value))
    (h : ∀ col, colOpt = some col → ∀ v ∈ col,
      v = Value.na ∨ ∃ q, v = Value.num q ∧ plainFloat q) :
    colOpt.map (List.map cleanCell) = colOpt := by
  cases hc : colOpt with
  | none => rfl
  | some col =>
    simp only [Option.map_some']
    congr 1
    apply map_eq_self_of
    intro v hv
    rcases h col hc v hv with rfl | ⟨q, rfl, hq⟩
    · exact cleanCell_na
    · exact cleanCell_num_plain q hq

theorem coerce_col_id (colOpt : Option (List Value))
    (h : ∀ col, colOpt = some col → ∀ v ∈ col, ∃ q, v = Value.num q) :
    colOpt.map (List.map fun v => Value.num (coerceZero v)) = colOpt := by
  cases hc : colOpt with
  | none => rfl
  | some col =>
    simp only [Option.map_some']
    congr 1
    apply map_eq_self_of
    intro v hv
    obtain ⟨q, rfl⟩ := h col hc v hv
    rfl

theorem cap_age_col_id (c : OutlierCapper) (hmin : c.age_min = 18) (hmax : c.age_max = 100)
    (colOpt : Option (List Value))
    (h : ∀ col, colOpt = some col → ∀ v ∈ col,
      v = Value.na ∨ ∃ q, v = Value.num q ∧ 18 ≤ q ∧ q ≤ 100) :
    colOpt.map (List.map (capAgeCell c)) = colOpt := by
  cases hc : colOpt with
  | none => rfl
  | some col =>
    simp only [Option.map_some']
    congr 1
    apply map_eq_self_of
    intro v hv
    rcases h col hc v hv with rfl | ⟨q, rfl, hq1, hq2⟩
    · exact capAgeCell_na c
    · exact capAgeCell_in c q (hmin ▸ hq1) (hmax ▸ hq2)

theorem cap_bank_col_id (c : OutlierCapper) (hacc : c.max_accounts = 20)
    (colOpt : Option (List Value))
    (h : ∀ col, colOpt = some col → ∀ v ∈ col,
      v = Value.na ∨ ∃ q, v = Value.num q ∧ 0 ≤ q ∧ q ≤ 20) :
    colOpt.map (fun col => (col.map (capBankHi c)).map capBankLo) = colOpt := by
  cases hc : colOpt with
  | none => rfl
  | some col =>
    simp only [Option.map_some']
    congr 1
    rw [List.map_map]
    apply map_eq_self_of
    intro v hv
    rcases h col hc v hv with rfl | ⟨q, rfl, hq1, hq2⟩
    · exact capBank_na c
    · exact capBank_in c q hq1 (hacc ▸ hq2)

end ChainHelpers

/-- C9 (amended): re-running the fitted transform chain on an already-clean
batch -- every cell of the dirty columns numeric or missing, ages within
[18,100], bank-account counts within [0,20], the balance and the four
ratio-input columns non-missing, and every numeric value in the plain
fixed-notation float regime (`plainFloat`) -- changes none of those columns.
Without the `plainFloat` restriction the claim fails: values such as 1e-05
print in scientific notation, and re-cleaning destroys them. -/
theorem claim_C9_amended (med : ℚ) (m : MissingValueImputer) (F : Frame)
    (hAge : ∀ col, F.Age = some col → ∀ v ∈ col,
      v = Value.na ∨ ∃ q, v = Value.num q ∧ plainFloat q ∧ 18 ≤ q ∧ q ≤ 100)
    (hBank : ∀ col, F.Num_Bank_Accounts = some col → ∀ v ∈ col,
      v = Value.na ∨ ∃ q, v = Value.num q ∧ plainFloat q ∧ 0 ≤ q ∧ q ≤ 20)
    (hBal : ∀ col, F.Monthly_Balance = some col → ∀ v ∈ col,
      ∃ q, v = Value.num q ∧ plainFloat q)
    (hAI : ∀ col, F.Annual_Income = some col → ∀ v ∈ col,
      ∃ q, v = Value.num q ∧ plainFloat q)
    (hOD : ∀ col, F.Outstanding_Debt = some col → ∀ v ∈ col,
      ∃ q, v = Value.num q ∧ plainFloat q)
    (hNC : ∀ col, F.Num_Credit_Card = some col → ∀ v ∈ col,
      ∃ q, v = Value.num q ∧ plainFloat q)
    (hMS : ∀ col, F.Monthly_Inhand_Salary = some col → ∀ v ∈ col,
      ∃ q, v = Value.num q ∧ plainFloat q)
    (hLen : ∀ bal occ, F.Monthly_Balance = some bal → F.Occupation = some occ →
      bal.length ≤ occ.length) :
    (chainTransform { median_age := med } m F).Age = F.Age ∧
    (chainTransform { median_age := med } m F).Num_Bank_Accounts = F.Num_Bank_Accounts ∧
    (chainTransform { median_age := med } m F).Monthly_Balance = F.Monthly_Balance ∧
    (chainTransform { median_age := med } m F).Occupation = F.Occupation ∧
    (chainTransform { median_age := med } m F).Annual_Income = F.Annual_Income ∧
    (chainTransform { median_age := med } m F).Outstanding_Debt = F.Outstanding_Debt ∧
    (chainTransform { median_age := med } m F).Num_Credit_Card = F.Num_Credit_Card ∧
    (chainTransform { median_age := med } m F).Monthly_Inhand_Salary =
      F.Monthly_Inhand_Salary := by
  -- Stage 1: RegexCleaner leaves clean cells alone.
  have c1Age : (RegexCleaner.transform F).Age = F.Age :=
    clean_col_id _ (fun col hc v hv => by
      rcases hAge col hc v hv with rfl | ⟨q, rfl, hq, _, _⟩
      · exact Or.inl rfl
      · exact Or.inr ⟨q, rfl, hq⟩)
  have c1Bank : (RegexCleaner.transform F).Num_Bank_Accounts = F.Num_Bank_Accounts :=
    clean_col_id _ (fun col hc v hv => by
      rcases hBank col hc v hv with rfl | ⟨q, rfl, hq, _, _⟩
      · exact Or.inl rfl
      · exact Or.inr ⟨q, rfl, hq⟩)
  have c1Bal : (RegexCleaner.transform F).Monthly_Balance = F.Monthly_Balance :=
    clean_col_id _ (fun col hc v hv => by
      obtain ⟨q, rfl, hq⟩ := hBal col hc v hv
      exact Or.inr ⟨q, rfl, hq⟩)
  have c1AI : (RegexCleaner.transform F).Annual_Income = F.Annual_Income :=
    clean_col_id _ (fun col hc v hv => by
      obtain ⟨q, rfl, hq⟩ := hAI col hc v hv
      exact Or.inr ⟨q, rfl, hq⟩)
  have c1OD : (RegexCleaner.transform F).Outstanding_Debt = F.Outstanding_Debt :=
    clean_col_id _ (fun col hc v hv => by
      obtain ⟨q, rfl, hq⟩ := hOD col hc v hv
      exact Or.inr ⟨q, rfl, hq⟩)
  have c1NC : (RegexCleaner.transform F).Num_Credit_Card = F.Num_Credit_Card :=
    clean_col_id _ (fun col hc v hv => by
      obtain ⟨q, rfl, hq⟩ := hNC col hc v hv
      exact Or.inr ⟨q, rfl, hq⟩)
  have c1MS : (RegexCleaner.transform F).Monthly_Inhand_Salary = F.Monthly_Inhand_Salary :=
    clean_col_id _ (fun col hc v hv => by
      obtain ⟨q, rfl, hq⟩ := hMS col hc v hv
      exact Or.inr ⟨q, rfl, hq⟩)
  have c1Occ : (RegexCleaner.transform F).Occupation = F.Occupation := rfl
  -- Stage 2: OutlierCapper leaves in-range cells alone.
  have c2Age : (OutlierCapper.transform { median_age := med }
      (RegexCleaner.transform F)).Age = F.Age := by
    show (RegexCleaner.transform F).Age.map
      (List.map (capAgeCell { median_age := med })) = F.Age
    rw [c1Age]
    exact cap_age_col_id _ rfl rfl _ (fun col hc v hv => by
      rcases hAge col hc v hv with rfl | ⟨q, rfl, _, h1, h2⟩
      · exact Or.inl rfl
      · exact Or.inr ⟨q, rfl, h1, h2⟩)
  have c2Bank : (OutlierCapper.transform { median_age := med }
      (RegexCleaner.transform F)).Num_Bank_Accounts = F.Num_Bank_Accounts := by
    show (RegexCleaner.transform F).Num_Bank_Accounts.map
      (fun col => (col.map (capBankHi { median_age := med })).map capBankLo) =
      F.Num_Bank_Accounts
    rw [c1Bank]
    exact cap_bank_col_id _ rfl _ (fun col hc v hv => by
      rcases hBank col hc v hv with rfl | ⟨q, rfl, _, h1, h2⟩
      · exact Or.inl rfl
      · exact Or.inr ⟨q, rfl, h1, h2⟩)
  have c2Bal : (OutlierCapper.transform { median_age := med }
      (RegexCleaner.transform F)).Monthly_Balance = F.Monthly_Balance := c1Bal
  have c2Occ : (OutlierCapper.transform { median_age := med }
      (RegexCleaner.transform F)).Occupation = F.Occupation := rfl
  have c2AI : (OutlierCapper.transform { median_age := med }
      (RegexCleaner.transform F)).Annual_Income = F.Annual_Income := c1AI
  have c2OD : (OutlierCapper.transform { median_age := med }
      (RegexCleaner.transform F)).Outstanding_Debt = F.Outstanding_Debt := c1OD
  have c2NC : (OutlierCapper.transform { median_age := med }
      (RegexCleaner.transform F)).Num_Credit_Card = F.Num_Credit_Card := c1NC
  have c2MS : (OutlierCapper.transform { median_age := med }
      (RegexCleaner.transform F)).Monthly_Inhand_Salary = F.Monthly_Inhand_Salary := c1MS
  -- Stage 3: the imputer fills nothing when every balance is present.
  have c3Bal : (m.transform (OutlierCapper.transform { median_age := med }
      (RegexCleaner.transform F))).Monthly_Balance = F.Monthly_Balance := by
    cases hb : F.Monthly_Balance with
    | none =>
      rw [imputer_noop m _ (Or.inl (c2Bal.trans hb))]
      exact c2Bal.trans hb
    | some bal =>
      cases ho : F.Occupation with
      | none =>
        rw [imputer_noop m _ (Or.inr (c2Occ.trans ho))]
        exact c2Bal.trans hb
      | some occ =>
        rw [imputer_balance m _ bal occ (c2Bal.trans hb) (c2Occ.trans ho)]
        rw [zipWith_fill_eq m bal occ (fun v hv => by
          obtain ⟨q, rfl, _⟩ := hBal bal hb v hv
          exact fun h => Value.noConfusion h) (hLen bal occ hb ho)]
  have impf := imputer_fields m (OutlierCapper.transform { median_age := med }
    (RegexCleaner.transform F))
  have c3Age := impf.1.trans c2Age
  have c3Bank := impf.2.1.trans c2Bank
  have c3Occ := impf.2.2.1.trans c2Occ
  have c3AI := impf.2.2.2.1.trans c2AI
  have c3OD := impf.2.2.2.2.1.trans c2OD
  have c3NC := impf.2.2.2.2.2.1.trans c2NC
  have c3MS := impf.2.2.2.2.2.2.1.trans c2MS
  -- Stage 4: the engineer's coercion leaves numeric cells alone.
  have htr : chainTransform { median_age := med } m F =
      addStab (addUtil (addDTI (coerceInputs (m.transform
        (OutlierCapper.transform { median_age := med }
          (RegexCleaner.transform F)))))) := rfl
  obtain ⟨s1, s2, s3, s4, s5, s6, s7, s8, _, _⟩ :=
    addStab_fields (addUtil (addDTI (coerceInputs (m.transform
      (OutlierCapper.transform { median_age := med } (RegexCleaner.transform F))))))
  obtain ⟨u1, u2, u3, u4, u5, u6, u7, u8, _, _⟩ :=
    addUtil_fields (addDTI (coerceInputs (m.transform
      (OutlierCapper.transform { median_age := med } (RegexCleaner.transform F)))))
  obtain ⟨d1, d2, d3, d4, d5, d6, d7, d8, _, _⟩ :=
    addDTI_fields (coerceInputs (m.transform
      (OutlierCapper.transform { median_age := med } (RegexCleaner.transform F))))
  refine ⟨?_, ?_, ?_, ?_, ?_, ?_, ?_, ?_⟩
  · rw [htr, s1, u1, d1]
    exact c3Age
  · rw [htr, s2, u2, d2]
    exact c3Bank
  · rw [htr, s3, u3, d3]
    exact c3Bal
  · rw [htr, s4, u4, d4]
    exact c3Occ
  · rw [htr, s5, u5, d5]
    show (m.transform (OutlierCapper.transform { median_age := med }
      (RegexCleaner.transform F))).Annual_Income.map
      (List.map fun v => Value.num (coerceZero v)) = F.Annual_Income
    rw [c3AI]
    exact coerce_col_id _ (fun col hc v hv => by
      obtain ⟨q, rfl, _⟩ := hAI col hc v hv
      exact ⟨q, rfl⟩)
  · rw [htr, s6, u6, d6]
    show (m.transform (OutlierCapper.transform { median_age := med }
      (RegexCleaner.transform F))).Outstanding_Debt.map
      (List.map fun v => Value.num (coerceZero v)) = F.Outstanding_Debt
    rw [c3OD]
    exact coerce_col_id _ (fun col hc v hv => by
      obtain ⟨q, rfl, _⟩ := hOD col hc v hv
      exact ⟨q, rfl⟩)
  · rw [htr, s7, u7, d7]
    show (m.transform (OutlierCapper.transform { median_age := med }
      (RegexCleaner.transform F))).Num_Credit_Card.map
      (List.map fun v => Value.num (coerceZero v)) = F.Num_Credit_Card
    rw [c3NC]
    exact coerce_col_id _ (fun col hc v hv => by
      obtain ⟨q, rfl, _⟩ := hNC col hc v hv
      exact ⟨q, rfl⟩)
  · rw [htr, s8, u8, d8]
    show (m.transform (OutlierCapper.transform { median_age := med }
      (RegexCleaner.transform F))).Monthly_Inhand_Salary.map
      (List.map fun v => Value.num (coerceZero v)) = F.Monthly_Inhand_Salary
    rw [c3MS]
    exact coerce_col_id _ (fun col hc v hv => by
      obtain ⟨q, rfl, _⟩ := hMS col hc v hv
      exact ⟨q, rfl⟩)

section CounterexampleCells

theorem plainFloat_den_one (q : ℚ) (hden : q.den = 1) (h1 : 1 ≤ |q|)
    (h2 : |q| < 10 ^ 16) : plainFloat q := by
  right
  refine ⟨?_, ?_, h2⟩
  · rw [hden]
    exact one_dvd _
  · calc (1 : ℚ) / 10 ^ 4 ≤ 1 := by norm_num
    _ ≤ |q| := h1

theorem cleanCell_str_30 : cleanCell (.str ['3', '0']) = .num 30 := by
  have hw := parseFloat_wellFormed false false ['3', '0'] [] (by decide) (by decide)
    (Or.inl (by decide)) (fun _ => rfl)
  simp only [Bool.false_eq_true, if_false, List.nil_append, List.append_nil] at hw
  have hn : natOfDigits ['3', '0'] = 30 := by decide
  have hz : natOfDigits ([] : List Char) = 0 := rfl
  rw [hn, hz] at hw
  unfold cleanCell
  rw [show valueStr (Value.str ['3', '0']) = ['3', '0'] from rfl,
    show filterNum ['3', '0'] = ['3', '0'] from by decide,
    if_neg (by decide), hw]
  norm_num

theorem cleanCell_str_00001 :
    cleanCell (.str ['0', '.', '0', '0', '0', '0', '1']) = .num (1 / 100000) := by
  have hw := parseFloat_wellFormed false true ['0'] ['0', '0', '0', '0', '1']
    (by decide) (by decide) (Or.inl (by decide)) (by decide)
  simp only [Bool.false_eq_true, if_false, List.nil_append, if_true] at hw
  have hn : natOfDigits ['0', '0', '0', '0', '1'] = 1 := by decide
  have hz : natOfDigits ['0'] = 0 := by decide
  rw [hn, hz] at hw
  unfold cleanCell
  rw [show valueStr (Value.str ['0', '.', '0', '0', '0', '0', '1']) =
      ['0', '.', '0', '0', '0', '0', '1'] from rfl,
    show filterNum ['0', '.', '0', '0', '0', '0', '1'] =
      ['0', '.', '0', '0', '0', '0', '1'] from by decide,
    if_neg (by decide)]
  rw [show (['0', '.', '0', '0', '0', '0', '1'] : List Char) =
      ['0'] ++ '.' :: ['0', '0', '0', '0', '1'] from rfl, hw]
  norm_num

theorem floatRepr_tiny : floatRepr ((1 : ℚ) / 100000) = ['1', 'e', '-', '0', '5'] := by
  unfold floatRepr floatReprAbs
  rw [if_neg (by norm_num), if_neg (by norm_num)]
  rw [show ((1 : ℚ) / 100000).den = 100000 from by norm_num,
    show decExpDen 100000 = 5 from by decide]
  show (if 1 / 10 ^ 4 ≤ (1 : ℚ) / 100000 ∧ (1 : ℚ) / 100000 < 10 ^ 16
    then fixedChars (((1 : ℚ) / 100000 * 10 ^ 5).num.toNat) 5
    else sciChars (((1 : ℚ) / 100000 * 10 ^ 5).num.toNat) 5) = ['1', 'e', '-', '0', '5']
  have hnum : (((1 : ℚ) / 100000) * 10 ^ 5).num.toNat = 1 := by norm_num
  rw [if_neg (by norm_num), hnum]
  decide

theorem cleanCell_tiny : cleanCell (.num ((1 : ℚ) / 100000)) = .na := by
  unfold cleanCell
  rw [show valueStr (Value.num ((1 : ℚ) / 100000)) = floatRepr ((1 : ℚ) / 100000) from rfl,
    floatRepr_tiny,
    show filterNum ['1', 'e', '-', '0', '5'] = ['1', '-', '0', '5'] from by decide,
    if_neg (by decide),
    show parseFloat? ['1', '-', '0', '5'] = none from by decide]

end CounterexampleCells

/-- C9 counterexample: a batch that is already clean in the claim's sense --
after one chain pass every cell of its dirty columns is numeric, the age 30
is inside [18,100] and the account count 3 inside [0,20] -- on which
re-running the chain nevertheless changes the `Annual_Income` column: the
income 1e-05 prints in scientific notation, the regex strips the `e`, the
remnant `1-05` fails to parse, and the engineer coerces the resulting
missing value to 0.  So transform ∘ transform disagrees with transform on an
already-numeric, in-range column. -/
theorem claim_C9_counterexample :
    (chainTransform {} {}
      { Age := some [Value.str ['3', '0']],
        Num_Bank_Accounts := some [Value.num 3],
        Annual_Income := some [Value.str ['0', '.', '0', '0', '0', '0', '1']] }).Age =
      some [Value.num 30] ∧
    (chainTransform {} {}
      { Age := some [Value.str ['3', '0']],
        Num_Bank_Accounts := some [Value.num 3],
        Annual_Income := some [Value.str ['0', '.', '0', '0', '0', '0', '1']]
          }).Num_Bank_Accounts = some [Value.num 3] ∧
    (chainTransform {} {}
      { Age := some [Value.str ['3', '0']],
        Num_Bank_Accounts := some [Value.num 3],
        Annual_Income := some [Value.str ['0', '.', '0', '0', '0', '0', '1']]
          }).Annual_Income = some [Value.num ((1 : ℚ) / 100000)] ∧
    (chainTransform {} {} (chainTransform {} {}
      { Age := some [Value.str ['3', '0']],
        Num_Bank_Accounts := some [Value.num 3],
        Annual_Income := some [Value.str ['0', '.', '0', '0', '0', '0', '1']]
          })).Annual_Income = some [Value.num 0] ∧
    Value.num (0 : ℚ) ≠ Value.num ((1 : ℚ) / 100000) := by
  set F0 : Frame :=
    { Age := some [Value.str ['3', '0']],
      Num_Bank_Accounts := some [Value.num 3],
      Annual_Income := some [Value.str ['0', '.', '0', '0', '0', '0', '1']] } with hF0
  have hplain3 : plainFloat 3 := plainFloat_den_one 3 (by norm_num) (by norm_num) (by norm_num)
  -- first pass, stage by stage
  have h1Age : (RegexCleaner.transform F0).Age = some [Value.num 30] := by
    show F0.Age.map (List.map cleanCell) = _
    rw [show F0.Age = some [Value.str ['3', '0']] from rfl]
    simp [cleanCell_str_30]
  have h1Bank : (RegexCleaner.transform F0).Num_Bank_Accounts = some [Value.num 3] := by
    show F0.Num_Bank_Accounts.map (List.map cleanCell) = _
    rw [show F0.Num_Bank_Accounts = some [Value.num 3] from rfl]
    simp [cleanCell_num_plain 3 hplain3]
  have h1AI : (RegexCleaner.transform F0).Annual_Income =
      some [Value.num ((1 : ℚ) / 100000)] := by
    show F0.Annual_Income.map (List.map cleanCell) = _
    rw [show F0.Annual_Income = some [Value.str ['0', '.', '0', '0', '0', '0', '1']] from rfl]
    simp [cleanCell_str_00001]
  have h1MB : (RegexCleaner.transform F0).Monthly_Balance = none := rfl
  have h2Age : (OutlierCapper.transform {} (RegexCleaner.transform F0)).Age =
      some [Value.num 30] := by
    show (RegexCleaner.transform F0).Age.map (List.map (capAgeCell {})) = _
    rw [h1Age]
    simp [capAgeCell_in ({} : OutlierCapper) 30
      (by show (18 : ℚ) ≤ 30; norm_num) (by show (30 : ℚ) ≤ 100; norm_num)]
  have h2Bank : (OutlierCapper.transform {}
      (RegexCleaner.transform F0)).Num_Bank_Accounts = some [Value.num 3] := by
    show (RegexCleaner.transform F0).Num_Bank_Accounts.map
      (fun col => (col.map (capBankHi {})).map capBankLo) = _
    rw [h1Bank]
    simp [capBank_in ({} : OutlierCapper) 3 (by norm_num) (by show (3 : ℚ) ≤ 20; norm_num)]
  have h2AI : (OutlierCapper.transform {} (RegexCleaner.transform F0)).Annual_Income =
      some [Value.num ((1 : ℚ) / 100000)] := h1AI
  have h2MB : (OutlierCapper.transform {} (RegexCleaner.transform F0)).Monthly_Balance =
      none := h1MB
  have h3 := imputer_noop ({} : MissingValueImputer)
    (OutlierCapper.transform {} (RegexCleaner.transform F0)) (Or.inl h2MB)
  have htr1 : chainTransform {} {} F0 = addStab (addUtil (addDTI (coerceInputs
      (({} : MissingValueImputer).transform
        (OutlierCapper.transform {} (RegexCleaner.transform F0)))))) := rfl
  have hGAge : (chainTransform {} {} F0).Age = some [Value.num 30] := by
    rw [htr1, (addStab_fields _).1, (addUtil_fields _).1, (addDTI_fields _).1]
    show (({} : MissingValueImputer).transform
      (OutlierCapper.transform {} (RegexCleaner.transform F0))).Age = _
    rw [h3]
    exact h2Age
  have hGBank : (chainTransform {} {} F0).Num_Bank_Accounts = some [Value.num 3] := by
    rw [htr1, (addStab_fields _).2.1, (addUtil_fields _).2.1, (addDTI_fields _).2.1]
    show (({} : MissingValueImputer).transform
      (OutlierCapper.transform {} (RegexCleaner.transform F0))).Num_Bank_Accounts = _
    rw [h3]
    exact h2Bank
  have hGAI : (chainTransform {} {} F0).Annual_Income =
      some [Value.num ((1 : ℚ) / 100000)] := by
    rw [htr1, (addStab_fields _).2.2.2.2.1, (addUtil_fields _).2.2.2.2.1,
      (addDTI_fields _).2.2.2.2.1]
    show (({} : MissingValueImputer).transform
      (OutlierCapper.transform {} (RegexCleaner.transform F0))).Annual_Income.map
      (List.map fun v => Value.num (coerceZero v)) = _
    rw [h3, h2AI]
    simp [coerceZero]
  have hGMB : (chainTransform {} {} F0).Monthly_Balance = none := by
    rw [htr1, (addStab_fields _).2.2.1, (addUtil_fields _).2.2.1, (addDTI_fields _).2.2.1]
    show (({} : MissingValueImputer).transform
      (OutlierCapper.transform {} (RegexCleaner.transform F0))).Monthly_Balance = _
    rw [h3]
    exact h2MB
  -- second pass on the already-clean output
  have h1'AI : (RegexCleaner.transform (chainTransform {} {} F0)).Annual_Income =
      some [Value.na] := by
    show (chainTransform {} {} F0).Annual_Income.map (List.map cleanCell) = _
    rw [hGAI]
    simp only [Option.map_some', List.map_cons, List.map_nil, cleanCell_tiny]
  have h1'MB : (RegexCleaner.transform (chainTransform {} {} F0)).Monthly_Balance =
      none := by
    show (chainTransform {} {} F0).Monthly_Balance.map (List.map cleanCell) = _
    rw [hGMB]
    rfl
  have h2'AI : (OutlierCapper.transform {}
      (RegexCleaner.transform (chainTransform {} {} F0))).Annual_Income =
      some [Value.na] := h1'AI
  have h2'MB : (OutlierCapper.transform {}
      (RegexCleaner.transform (chainTransform {} {} F0))).Monthly_Balance = none := h1'MB
  have h3' := imputer_noop ({} : MissingValueImputer)
    (OutlierCapper.transform {} (RegexCleaner.transform (chainTransform {} {} F0)))
    (Or.inl h2'MB)
  have htr2 : chainTransform {} {} (chainTransform {} {} F0) =
      addStab (addUtil (addDTI (coerceInputs
        (({} : MissingValueImputer).transform (OutlierCapper.transform {}
          (RegexCleaner.transform (chainTransform {} {} F0))))))) := rfl
  have hFinal : (chainTransform {} {} (chainTransform {} {} F0)).Annual_Income =
      some [Value.num 0] := by
    rw [htr2, (addStab_fields _).2.2.2.2.1, (addUtil_fields _).2.2.2.2.1,
      (addDTI_fields _).2.2.2.2.1]
    show (({} : MissingValueImputer).transform (OutlierCapper.transform {}
      (RegexCleaner.transform (chainTransform {} {} F0)))).Annual_Income.map
      (List.map fun v => Value.num (coerceZero v)) = _
    rw [h3', h2'AI]
    simp [coerceZero]
  refine ⟨hGAge, hGBank, hGAI, hFinal, ?_⟩
  simp only [ne_eq, Value.num.injEq]
  norm_num

/-- C9 amended-claim witness: a one-row batch with plain in-range values --
age 30, 3 accounts, balance 350, occupation Engineer, income 65000, debt 800,
3 cards, salary 4500 -- is a fixpoint of the chain on all its columns. -/
theorem claim_C9_witness :
    (chainTransform { median_age := 30 } {}
      { Age := some [Value.num 30], Num_Bank_Accounts := some [Value.num 3],
        Monthly_Balance := some [Value.num 350], Occupation := some ["Engineer"],
        Annual_Income := some [Value.num 65000], Outstanding_Debt := some [Value.num 800],
        Num_Credit_Card := some [Value.num 3],
        Monthly_Inhand_Salary := some [Value.num 4500] }).Annual_Income =
      some [Value.num 65000] ∧
    (chainTransform { median_age := 30 } {}
      { Age := some [Value.num 30], Num_Bank_Accounts := some [Value.num 3],
        Monthly_Balance := some [Value.num 350], Occupation := some ["Engineer"],
        Annual_Income := some [Value.num 65000], Outstanding_Debt := some [Value.num 800],
        Num_Credit_Card := some [Value.num 3],
        Monthly_Inhand_Salary := some [Value.num 4500] }).Age = some [Value.num 30] ∧
    (chainTransform { median_age := 30 } {}
      { Age := some [Value.num 30], Num_Bank_Accounts := some [Value.num 3],
        Monthly_Balance := some [Value.num 350], Occupation := some ["Engineer"],
        Annual_Income := some [Value.num 65000], Outstanding_Debt := some [Value.num 800],
        Num_Credit_Card := some [Value.num 3],
        Monthly_Inhand_Salary := some [Value.num 4500] }).Monthly_Balance =
      some [Value.num 350] := by
  have h30 : plainFloat 30 := plainFloat_den_one 30 (by norm_num) (by norm_num) (by norm_num)
  have h3 : plainFloat 3 := plainFloat_den_one 3 (by norm_num) (by norm_num) (by norm_num)
  have h350 : plainFloat 350 := plainFloat_den_one 350 (by norm_num) (by norm_num) (by norm_num)
  have h65000 : plainFloat 65000 :=
    plainFloat_den_one 65000 (by norm_num) (by norm_num) (by norm_num)
  have h800 : plainFloat 800 := plainFloat_den_one 800 (by norm_num) (by norm_num) (by norm_num)
  have h4500 : plainFloat 4500 :=
    plainFloat_den_one 4500 (by norm_num) (by norm_num) (by norm_num)
  have h := claim_C9_amended 30 {}
    { Age := some [Value.num 30], Num_Bank_Accounts := some [Value.num 3],
      Monthly_Balance := some [Value.num 350], Occupation := some ["Engineer"],
      Annual_Income := some [Value.num 65000], Outstanding_Debt := some [Value.num 800],
      Num_Credit_Card := some [Value.num 3],
      Monthly_Inhand_Salary := some [Value.num 4500] }
    (by
      intro col hc v hv
      simp only [Option.some.injEq] at hc
      subst hc
      simp only [List.mem_singleton] at hv
      subst hv
      exact Or.inr ⟨30, rfl, h30, by norm_num, by norm_num⟩)
    (by
      intro col hc v hv
      simp only [Option.some.injEq] at hc
      subst hc
      simp only [List.mem_singleton] at hv
      subst hv
      exact Or.inr ⟨3, rfl, h3, by norm_num, by norm_num⟩)
    (by
      intro col hc v hv
      simp only [Option.some.injEq] at hc
      subst hc
      simp only [List.mem_singleton] at hv
      subst hv
      exact ⟨350, rfl, h350⟩)
    (by
      intro col hc v hv
      simp only [Option.some.injEq] at hc
      subst hc
      simp only [List.mem_singleton] at hv
      subst hv
      exact ⟨65000, rfl, h65000⟩)
    (by
      intro col hc v hv
      simp only [Option.some.injEq] at hc
      subst hc
      simp only [List.mem_singleton] at hv
      subst hv
      exact ⟨800, rfl, h800⟩)
    (by
      intro col hc v hv
      simp only [Option.some.injEq] at hc
      subst hc
      simp only [List.mem_singleton] at hv
      subst hv
      exact ⟨3, rfl, h3⟩)
    (by
      intro col hc v hv
      simp only [Option.some.injEq] at hc
      subst hc
      simp only [List.mem_singleton] at hv
      subst hv
      exact ⟨4500, rfl, h4500⟩)
    (by
      intro bal occ hb ho
      simp only [Option.some.injEq] at hb ho
      subst hb
      subst ho
      simp)
  exact ⟨h.2.2.2.2.1, h.1, h.2.2.1⟩
